import Mathlib

/-!
Shallow embedding of the chip8-rs execution core (crate `chip8_core`):
the instruction decoder (`src/instructions.rs`), the machine state and the
fetch-decode-execute step `Core::tick` (`src/core.rs`), and the error type
(`src/lib.rs`).  Machine integers are modelled as `Nat` with explicit
`% 2^w` / bit-masking wherever the Rust types wrap (release-profile
semantics: arithmetic overflow wraps, shift amounts are masked).  Rust
panics (out-of-range slice indexing, `unimplemented!()`) are modelled as a
distinct `Fault.crash` outcome, separate from the `Error` values that
`tick` returns through its `Result`.
-/

namespace Chip8

/-- `chip8_core::Error` (lib.rs). -/
inductive Error where
  | invalidInstruction (op : Nat)
  | invalidAlignment
  | stackOverflow
deriving DecidableEq, Repr

/-- The distinct Rust panic sites of the core: out-of-range fetch slicing
(`&mem[pc..]` / `instruction[0..2]`), out-of-range register indexing,
out-of-range memory indexing (BCD, bulk load/store, sprite slicing), and
the `unimplemented!()` arm for `I0NNN`. -/
inductive Crash where
  | fetchOob
  | regOob
  | memOob
  | unimplemented
deriving DecidableEq, Repr

/-- Outcome of a failed step: an `Error` returned through `Result`, or a
Rust panic (process abort). -/
inductive Fault where
  | err (e : Error)
  | crash (c : Crash)
deriving DecidableEq, Repr

/-- `instructions::Instruction`: the 34 decoded instruction variants.
Register operands, 4-bit, 8-bit and 12-bit immediates are all `Nat`. -/
inductive Instruction where
  | I0NNN (nnn : Nat)
  | I00E0
  | I00EE
  | I1NNN (nnn : Nat)
  | I2NNN (nnn : Nat)
  | I3XNN (x vv : Nat)
  | I4XNN (x vv : Nat)
  | I5XY0 (x y : Nat)
  | I6XNN (x vv : Nat)
  | I7XNN (x vv : Nat)
  | I8XY0 (x y : Nat)
  | I8XY1 (x y : Nat)
  | I8XY2 (x y : Nat)
  | I8XY3 (x y : Nat)
  | I8XY4 (x y : Nat)
  | I8XY5 (x y : Nat)
  | I8XY6 (x y : Nat)
  | I8XY7 (x y : Nat)
  | I8XYE (x y : Nat)
  | I9XY0 (x y : Nat)
  | IANNN (nnn : Nat)
  | IBNNN (nnn : Nat)
  | ICXNN (x vv : Nat)
  | IDXYN (x y v : Nat)
  | IEX9E (x : Nat)
  | IEXA1 (x : Nat)
  | IFX07 (x : Nat)
  | IFX0A (x : Nat)
  | IFX15 (x : Nat)
  | IFX18 (x : Nat)
  | IFX1E (x : Nat)
  | IFX29 (x : Nat)
  | IFX33 (x : Nat)
  | IFX55 (x : Nat)
  | IFX65 (x : Nat)
deriving DecidableEq, Repr

/-- `Register::from(u8)`: mask to the low nibble. -/
def registerOf (v : Nat) : Nat := v &&& 0x0F

/-- `Value4::from(u8)`: mask to the low nibble. -/
def value4Of (v : Nat) : Nat := v &&& 0x0F

/-- `Value8::from((u8, u8))`: `(hi << 4) | (lo & 0x0F)` in `u8`. -/
def value8Of (hi lo : Nat) : Nat := ((hi <<< 4) &&& 0xFF) ||| (lo &&& 0x0F)

/-- `Address::from((u8, u8, u8))`. -/
def addressOf (a b c : Nat) : Nat :=
  (((a <<< 8) &&& 0xF00) ||| ((b <<< 4) &&& 0x0F0)) ||| (c &&& 0x00F)

/-- `instructions::nibbles`: the four byte-truncated right shifts. -/
def nibbles (v : Nat) : Nat × Nat × Nat × Nat :=
  ((v >>> 12) &&& 0xFF, (v >>> 8) &&& 0xFF, (v >>> 4) &&& 0xFF, v &&& 0xFF)

/-- `Instruction::decode_0`. -/
def decode0 (nnn : Nat) : Except Unit Instruction :=
  if nnn = 0x0E0 then .ok .I00E0
  else if nnn = 0x0EE then .ok .I00EE
  else if 0x200 ≤ nnn ∧ nnn ≤ 0xFFF then .ok (.I0NNN nnn)
  else .error ()

/-- `Instruction::decode_5`. -/
def decode5 (x y v : Nat) : Except Unit Instruction :=
  match v with
  | 0 => .ok (.I5XY0 x y)
  | _ => .error ()

/-- `Instruction::decode_8`. -/
def decode8 (x y v : Nat) : Except Unit Instruction :=
  match v with
  | 0x0 => .ok (.I8XY0 x y)
  | 0x1 => .ok (.I8XY1 x y)
  | 0x2 => .ok (.I8XY2 x y)
  | 0x3 => .ok (.I8XY3 x y)
  | 0x4 => .ok (.I8XY4 x y)
  | 0x5 => .ok (.I8XY5 x y)
  | 0x6 => .ok (.I8XY6 x y)
  | 0x7 => .ok (.I8XY7 x y)
  | 0xE => .ok (.I8XYE x y)
  | _ => .error ()

/-- `Instruction::decode_9`. -/
def decode9 (x y v : Nat) : Except Unit Instruction :=
  match v with
  | 0 => .ok (.I9XY0 x y)
  | _ => .error ()

/-- `Instruction::decode_e`. -/
def decodeE (x vv : Nat) : Except Unit Instruction :=
  match vv with
  | 0x9E => .ok (.IEX9E x)
  | 0xA1 => .ok (.IEXA1 x)
  | _ => .error ()

/-- `Instruction::decode_f`. -/
def decodeF (x vv : Nat) : Except Unit Instruction :=
  match vv with
  | 0x07 => .ok (.IFX07 x)
  | 0x0A => .ok (.IFX0A x)
  | 0x15 => .ok (.IFX15 x)
  | 0x18 => .ok (.IFX18 x)
  | 0x1E => .ok (.IFX1E x)
  | 0x29 => .ok (.IFX29 x)
  | 0x33 => .ok (.IFX33 x)
  | 0x55 => .ok (.IFX55 x)
  | 0x65 => .ok (.IFX65 x)
  | _ => .error ()

/-- The nibble dispatch of `impl TryFrom<&[u8]> for Instruction` on an
already-assembled big-endian 16-bit opcode: the Rust `match nibbles(ins)`
dispatches on the first tuple component, binding the remaining three
(written here with tuple projections of `nibbles`). -/
def decode (op : Nat) : Except Unit Instruction :=
  let a := (nibbles op).2.1
  let b := (nibbles op).2.2.1
  let c := (nibbles op).2.2.2
  match (nibbles op).1 with
  | 0x0 => decode0 (addressOf a b c)
  | 0x1 => .ok (.I1NNN (addressOf a b c))
  | 0x2 => .ok (.I2NNN (addressOf a b c))
  | 0x3 => .ok (.I3XNN (registerOf a) (value8Of b c))
  | 0x4 => .ok (.I4XNN (registerOf a) (value8Of b c))
  | 0x5 => decode5 (registerOf a) (registerOf b) (value4Of c)
  | 0x6 => .ok (.I6XNN (registerOf a) (value8Of b c))
  | 0x7 => .ok (.I7XNN (registerOf a) (value8Of b c))
  | 0x8 => decode8 (registerOf a) (registerOf b) (value4Of c)
  | 0x9 => decode9 (registerOf a) (registerOf b) (value4Of c)
  | 0xA => .ok (.IANNN (addressOf a b c))
  | 0xB => .ok (.IBNNN (addressOf a b c))
  | 0xC => .ok (.ICXNN (registerOf a) (value8Of b c))
  | 0xD => .ok (.IDXYN (registerOf a) (registerOf b) (value4Of c))
  | 0xE => decodeE (registerOf a) (value8Of b c)
  | 0xF => decodeF (registerOf a) (value8Of b c)
  | _ => .error ()

/-- `impl TryFrom<&[u8]> for Instruction`: `instruction[0..2]` panics when
fewer than 2 bytes are available (so the `TryFromSliceError →
InvalidAlignment` conversion is unreachable); otherwise the two bytes are
assembled big-endian and decoded, a decode failure becoming
`InvalidInstruction(opcode)`. -/
def instructionTryFrom : List Nat → Except Fault Instruction
  | b0 :: b1 :: _ =>
    let op := ((b0 &&& 0xFF) <<< 8) ||| (b1 &&& 0xFF)
    match decode op with
    | .ok ins => .ok ins
    | .error _ => .error (.err (.invalidInstruction op))
  | _ => .error (.crash .fetchOob)

instance {ε α : Type} [DecidableEq ε] [DecidableEq α] :
    DecidableEq (Except ε α) := fun x y =>
  match x, y with
  | .ok a, .ok b =>
    if h : a = b then .isTrue (by rw [h])
    else .isFalse (by intro hc; cases hc; exact h rfl)
  | .error a, .error b =>
    if h : a = b then .isTrue (by rw [h])
    else .isFalse (by intro hc; cases hc; exact h rfl)
  | .ok _, .error _ => .isFalse (by intro hc; cases hc)
  | .error _, .ok _ => .isFalse (by intro hc; cases hc)

/-- The machine state owned by `Core` (core.rs): the three borrowed
buffers plus the `i`, `pc`, `sp` registers.  (`last_instruction` is a
std-only logging aid and carries no execution semantics.) -/
structure St where
  mem : List Nat
  reg : List Nat
  stack : List Nat
  i : Nat
  pc : Nat
  sp : Nat
deriving DecidableEq, Repr

/-- The values supplied by the external capabilities during one `tick`:
the keypad snapshot, the falling-edge set, the byte the randomness source
yields, the delay timer's current value, and the collision result of
`Graphics::toggle_sprite`. -/
structure Inputs where
  keys : Nat
  edges : Nat
  randomByte : Nat
  delayVal : Nat
  collide : Bool
deriving DecidableEq, Repr

/-- The `ModPc` program-counter disposition local to `Core::tick`. -/
inductive ModPc where
  | hold
  | normal
  | skip (n : Nat)
  | jump (t : Nat)
  | ret (v : Nat)
deriving DecidableEq, Repr

/-- `fn bcd(val: u8) -> (u8, u8, u8)` (core.rs). -/
def bcd (val : Nat) : Nat × Nat × Nat :=
  let hundreds := val / 100
  let val1 := val - hundreds * 100
  let tens := val1 / 10
  let val2 := val1 - tens * 10
  (hundreds, tens, val2)

/-- The 80-byte built-in hexadecimal font of `Core::load_font`. -/
def fontData : List Nat :=
  [0xF0, 0x90, 0x90, 0x90, 0xF0,
   0x20, 0x60, 0x20, 0x20, 0x70,
   0xF0, 0x10, 0xF0, 0x80, 0xF0,
   0xF0, 0x10, 0xF0, 0x10, 0xF0,
   0x90, 0x90, 0xF0, 0x10, 0x10,
   0xF0, 0x80, 0xF0, 0x10, 0xF0,
   0xF0, 0x80, 0xF0, 0x90, 0xF0,
   0xF0, 0x10, 0x20, 0x40, 0x40,
   0xF0, 0x90, 0xF0, 0x90, 0xF0,
   0xF0, 0x90, 0xF0, 0x10, 0xF0,
   0xF0, 0x90, 0xF0, 0x90, 0x90,
   0xE0, 0x90, 0xE0, 0x90, 0xE0,
   0xF0, 0x80, 0x80, 0x80, 0xF0,
   0xE0, 0x90, 0x90, 0x90, 0xE0,
   0xF0, 0x80, 0xF0, 0x80, 0xF0,
   0xF0, 0x80, 0xF0, 0x80, 0x80]

/-- `Core::load_font`: overwrite bytes `0..80` with the font. -/
def loadFont (mem : List Nat) : List Nat := fontData ++ mem.drop (5 * 16)

/-- `Core::new`: the three size assertions (`mem.len() >= 2048`,
`reg.len() >= 16`, `stack.len() >= 16`), then the font load and the field
initialisation (`i = 0`, `pc = 0x200`, `sp = 0`).  `none` models an
assertion failure; the register file and stack keep the caller-supplied
contents. -/
def newCore (mem reg stack : List Nat) : Option St :=
  if 2048 ≤ mem.length ∧ 16 ≤ reg.length ∧ 16 ≤ stack.length then
    some { mem := loadFont mem, reg := reg, stack := stack,
           i := 0, pc := 0x200, sp := 0 }
  else
    none

/-- `Core::r` read access `self.reg[idx]`: panics when out of bounds. -/
def rGet (s : St) (x : Nat) : Except Fault Nat :=
  if x < s.reg.length then .ok (s.reg.getD x 0)
  else .error (.crash .regOob)

/-- `Core::r` write access `*self.r(x) = v` (the stored value is a `u8`):
panics when out of bounds. -/
def rSet (s : St) (x v : Nat) : Except Fault St :=
  if x < s.reg.length then .ok { s with reg := s.reg.set x (v % 256) }
  else .error (.crash .regOob)

/-- `self.mem[a]` read: panics when out of bounds. -/
def memRead (s : St) (a : Nat) : Except Fault Nat :=
  if a < s.mem.length then .ok (s.mem.getD a 0)
  else .error (.crash .memOob)

/-- `self.mem[a] = v` write (the stored value is a `u8`): panics when out
of bounds. -/
def memWrite (s : St) (a v : Nat) : Except Fault St :=
  if a < s.mem.length then .ok { s with mem := s.mem.set a (v % 256) }
  else .error (.crash .memOob)

/-- `Core::pop`: `self.sp -= 1` (u8, wrapping in release) happens before
the bounds check, so the decremented pointer survives even when the
subsequent `stack.get` fails with `StackOverflow`. -/
def pop (s : St) : St × Except Fault Nat :=
  let sp1 := (s.sp + 255) % 256
  let s1 : St := { s with sp := sp1 }
  if sp1 < s.stack.length then (s1, .ok (s.stack.getD sp1 0))
  else (s1, .error (.err .stackOverflow))

/-- `Core::push`: `stack.get_mut(sp)` fails with `StackOverflow` before
any mutation; on success the value is stored (u16) and `sp += 1` wraps as
a `u8`. -/
def push (s : St) (v : Nat) : Except Fault St :=
  if s.sp < s.stack.length then
    .ok { s with stack := s.stack.set s.sp (v % 65536),
                 sp := (s.sp + 1) % 256 }
  else
    .error (.err .stackOverflow)

/-- `Keys::pressed`: `self.0 & (1u16 << idx) != 0`; the shift amount is
masked to the bit width (release semantics). -/
def keysPressed (keys idx : Nat) : Bool :=
  decide (keys &&& (1 <<< (idx % 16)) ≠ 0)

/-- The scanning loop of `FallingEdges::pop_next_idx` over the bit indices
`0..16`: the first set bit is cleared and its index returned. -/
def popLoop (e : Nat) : List Nat → Option (Nat × Nat)
  | [] => none
  | idx :: rest =>
    if e &&& (1 <<< idx) ≠ 0 then some (idx, e ^^^ (1 <<< idx))
    else popLoop e rest

/-- `FallingEdges::pop_next_idx`: short-circuit on an empty set, else scan
bits `0..16` in ascending order.  Returns the popped index together with
the remaining edge set. -/
def popNextIdx (e : Nat) : Option (Nat × Nat) :=
  if e = 0 then none else popLoop e (List.range 16)

/-- The `for i in 0..(x.0 + 1)` loop of `IFX55`:
`self.mem[self.i + i] = *self.r(i.into())`. -/
def bulkStore (base : Nat) : St → List Nat → Except (St × Fault) St
  | s, [] => .ok s
  | s, idx :: rest =>
    match rGet s (registerOf idx) with
    | .error f => .error (s, f)
    | .ok v =>
      match memWrite s (base + idx) v with
      | .error f => .error (s, f)
      | .ok s1 => bulkStore base s1 rest

/-- The `for i in 0..(x.0 + 1)` loop of `IFX65`:
`*self.r(i.into()) = self.mem[self.i + i]`. -/
def bulkLoad (base : Nat) : St → List Nat → Except (St × Fault) St
  | s, [] => .ok s
  | s, idx :: rest =>
    match memRead s (base + idx) with
    | .error f => .error (s, f)
    | .ok v =>
      match rSet s (registerOf idx) v with
      | .error f => .error (s, f)
      | .ok s1 => bulkLoad base s1 rest

/-- The instruction dispatch of `Core::tick`, one arm per decoded
instruction, producing the mutated state and the `ModPc` disposition.  An
error result carries the state as mutated up to the failure point (`&mut
self` persists across a `?` return). -/
def execInstr (s : St) (inp : Inputs) : Instruction → Except (St × Fault) (St × ModPc)
  | .I0NNN _ => .error (s, .crash .unimplemented)
  | .I00E0 => .ok (s, .normal)
  | .I00EE =>
    match pop s with
    | (s1, .ok v) => .ok (s1, .ret v)
    | (s1, .error f) => .error (s1, f)
  | .I1NNN nnn => .ok (s, .jump nnn)
  | .I2NNN nnn =>
    match push s s.pc with
    | .ok s1 => .ok (s1, .jump nnn)
    | .error f => .error (s, f)
  | .I3XNN x vv =>
    match rGet s x with
    | .ok v => .ok (s, if v = vv then .skip 1 else .normal)
    | .error f => .error (s, f)
  | .I4XNN x vv =>
    match rGet s x with
    | .ok v => .ok (s, if v ≠ vv then .skip 1 else .normal)
    | .error f => .error (s, f)
  | .I5XY0 x y =>
    match rGet s x with
    | .error f => .error (s, f)
    | .ok vx =>
      match rGet s y with
      | .error f => .error (s, f)
      | .ok vy => .ok (s, if vx = vy then .skip 1 else .normal)
  | .I6XNN x vv =>
    match rSet s x vv with
    | .ok s1 => .ok (s1, .normal)
    | .error f => .error (s, f)
  | .I7XNN x vv =>
    match rGet s x with
    | .error f => .error (s, f)
    | .ok v =>
      match rSet s x ((v + vv) % 256) with
      | .ok s1 => .ok (s1, .normal)
      | .error f => .error (s, f)
  | .I8XY0 x y =>
    match rGet s y with
    | .error f => .error (s, f)
    | .ok vy =>
      match rSet s x vy with
      | .ok s1 => .ok (s1, .normal)
      | .error f => .error (s, f)
  | .I8XY1 x y =>
    match rGet s x with
    | .error f => .error (s, f)
    | .ok vx =>
      match rGet s y with
      | .error f => .error (s, f)
      | .ok vy =>
        match rSet s x (vx ||| vy) with
        | .ok s1 => .ok (s1, .normal)
        | .error f => .error (s, f)
  | .I8XY2 x y =>
    match rGet s x with
    | .error f => .error (s, f)
    | .ok vx =>
      match rGet s y with
      | .error f => .error (s, f)
      | .ok vy =>
        match rSet s x (vx &&& vy) with
        | .ok s1 => .ok (s1, .normal)
        | .error f => .error (s, f)
  | .I8XY3 x y =>
    match rGet s x with
    | .error f => .error (s, f)
    | .ok vx =>
      match rGet s y with
      | .error f => .error (s, f)
      | .ok vy =>
        match rSet s x (vx ^^^ vy) with
        | .ok s1 => .ok (s1, .normal)
        | .error f => .error (s, f)
  | .I8XY4 x y =>
    match rGet s x with
    | .error f => .error (s, f)
    | .ok vx =>
      match rGet s y with
      | .error f => .error (s, f)
      | .ok vy =>
        match rSet s x ((vx + vy) % 256) with
        | .error f => .error (s, f)
        | .ok s1 =>
          match rSet s1 15 (if 256 ≤ vx + vy then 1 else 0) with
          | .ok s2 => .ok (s2, .normal)
          | .error f => .error (s1, f)
  | .I8XY5 x y =>
    match rGet s x with
    | .error f => .error (s, f)
    | .ok vx =>
      match rGet s y with
      | .error f => .error (s, f)
      | .ok vy =>
        match rSet s x ((vx + 256 - vy % 256) % 256) with
        | .error f => .error (s, f)
        | .ok s1 =>
          match rSet s1 15 (if vx < vy then 0 else 1) with
          | .ok s2 => .ok (s2, .normal)
          | .error f => .error (s1, f)
  | .I8XY6 x _y =>
    match rGet s x with
    | .error f => .error (s, f)
    | .ok vx =>
      match rSet s 15 (vx &&& 0x01) with
      | .error f => .error (s, f)
      | .ok s1 =>
        match rGet s1 x with
        | .error f => .error (s1, f)
        | .ok vx1 =>
          match rSet s1 x (vx1 / 2) with
          | .ok s2 => .ok (s2, .normal)
          | .error f => .error (s1, f)
  | .I8XY7 x y =>
    match rGet s y with
    | .error f => .error (s, f)
    | .ok vy =>
      match rGet s x with
      | .error f => .error (s, f)
      | .ok vx =>
        match rSet s x ((vy + 256 - vx % 256) % 256) with
        | .error f => .error (s, f)
        | .ok s1 =>
          match rSet s1 15 (if vy < vx then 0 else 1) with
          | .ok s2 => .ok (s2, .normal)
          | .error f => .error (s1, f)
  | .I8XYE x _y =>
    match rGet s x with
    | .error f => .error (s, f)
    | .ok vx =>
      match rSet s x ((vx * 2) % 256) with
      | .error f => .error (s, f)
      | .ok s1 =>
        match rSet s1 15 (if 256 ≤ vx * 2 then 1 else 0) with
        | .ok s2 => .ok (s2, .normal)
        | .error f => .error (s1, f)
  | .I9XY0 x y =>
    match rGet s x with
    | .error f => .error (s, f)
    | .ok vx =>
      match rGet s y with
      | .error f => .error (s, f)
      | .ok vy => .ok (s, if vx ≠ vy then .skip 1 else .normal)
  | .IANNN nnn => .ok ({ s with i := nnn }, .normal)
  | .IBNNN nnn =>
    match rGet s 0 with
    | .ok v0 => .ok (s, .jump ((nnn + v0) % 65536))
    | .error f => .error (s, f)
  | .ICXNN x vv =>
    match rSet s x (inp.randomByte &&& vv) with
    | .ok s1 => .ok (s1, .normal)
    | .error f => .error (s, f)
  | .IDXYN x y v =>
    match rGet s x with
    | .error f => .error (s, f)
    | .ok _vx =>
      match rGet s y with
      | .error f => .error (s, f)
      | .ok _vy =>
        if s.i + v ≤ s.mem.length then
          match rSet s 15 (if inp.collide then 1 else 0) with
          | .ok s1 => .ok (s1, .normal)
          | .error f => .error (s, f)
        else .error (s, .crash .memOob)
  | .IEX9E x =>
    match rGet s x with
    | .ok v => .ok (s, if keysPressed inp.keys v then .skip 1 else .normal)
    | .error f => .error (s, f)
  | .IEXA1 x =>
    match rGet s x with
    | .ok v => .ok (s, if ¬ keysPressed inp.keys v then .skip 1 else .normal)
    | .error f => .error (s, f)
  | .IFX07 x =>
    match rSet s x inp.delayVal with
    | .ok s1 => .ok (s1, .normal)
    | .error f => .error (s, f)
  | .IFX0A x =>
    match popNextIdx inp.edges with
    | some (idx, _) =>
      match rSet s x idx with
      | .ok s1 => .ok (s1, .normal)
      | .error f => .error (s, f)
    | none => .ok (s, .hold)
  | .IFX15 x =>
    match rGet s x with
    | .ok _ => .ok (s, .normal)
    | .error f => .error (s, f)
  | .IFX18 x =>
    match rGet s x with
    | .ok _ => .ok (s, .normal)
    | .error f => .error (s, f)
  | .IFX1E x =>
    match rGet s x with
    | .ok v => .ok ({ s with i := (s.i + v) % 65536 }, .normal)
    | .error f => .error (s, f)
  | .IFX29 x =>
    match rGet s x with
    | .ok v => .ok ({ s with i := (v * 5) % 65536 }, .normal)
    | .error f => .error (s, f)
  | .IFX33 x =>
    match rGet s x with
    | .error f => .error (s, f)
    | .ok v =>
      match memWrite s s.i (bcd v).1 with
      | .error f => .error (s, f)
      | .ok s1 =>
        match memWrite s1 (s1.i + 1) (bcd v).2.1 with
        | .error f => .error (s1, f)
        | .ok s2 =>
          match memWrite s2 (s2.i + 2) (bcd v).2.2 with
          | .ok s3 => .ok (s3, .normal)
          | .error f => .error (s2, f)
  | .IFX55 x =>
    match bulkStore s.i s (List.range (x + 1)) with
    | .ok s1 => .ok (s1, .normal)
    | .error sf => .error sf
  | .IFX65 x =>
    match bulkLoad s.i s (List.range (x + 1)) with
    | .ok s1 => .ok (s1, .normal)
    | .error sf => .error sf

/-- The `pc_after` application at the end of `Core::tick` (u16
arithmetic). -/
def applyPc (s : St) : ModPc → St
  | .hold => s
  | .normal => { s with pc := (s.pc + 2) % 65536 }
  | .skip n => { s with pc := (s.pc + 2 * (n + 1)) % 65536 }
  | .jump t => { s with pc := t % 65536 }
  | .ret v => { s with pc := (v + 2) % 65536 }

/-- The fetch of `Core::tick`: `&self.mem[self.pc as usize..]` panics when
`pc` exceeds the buffer length; the tail is then decoded. -/
def fetch (s : St) : Except Fault Instruction :=
  if s.pc ≤ s.mem.length then instructionTryFrom (s.mem.drop s.pc)
  else .error (.crash .fetchOob)

/-- `Core::tick`: fetch, decode, execute, then apply the program-counter
disposition.  The returned state is the post-call content of `&mut self`
(partial mutations survive error returns). -/
def tick (s : St) (inp : Inputs) : St × Except Fault Unit :=
  match fetch s with
  | .error f => (s, .error f)
  | .ok ins =>
    match execInstr s inp ins with
    | .ok (s1, disp) => (applyPc s1 disp, .ok ())
    | .error (s1, f) => (s1, .error f)

/-- The executed instruction's jump-family target (1NNN/2NNN operand,
BNNN's `nnn + V0`, or the value a return would pop) is even; vacuous for
all other instructions.  Spec-side predicate used to state the amended
program-counter alignment claim. -/
def jumpTargetsEven (s : St) : Bool :=
  match fetch s with
  | .ok (.I1NNN nnn) => nnn % 2 == 0
  | .ok (.I2NNN nnn) => nnn % 2 == 0
  | .ok (.IBNNN nnn) => (nnn + s.reg.getD 0 0) % 2 == 0
  | .ok .I00EE => s.stack.getD ((s.sp + 255) % 256) 0 % 2 == 0
  | _ => true

/-- Inputs with no keys, no falling edges, zero randomness and timer. -/
def inp0 : Inputs :=
  { keys := 0, edges := 0, randomByte := 0, delayVal := 0, collide := false }

/-- Inputs whose falling-edge set is `{4, 5}` (mask 0x30). -/
def inpE : Inputs :=
  { keys := 0, edges := 0x30, randomByte := 0, delayVal := 0, collide := false }

/-- A 2048-byte memory image whose ROM begins at 0x200 with the jump
instruction `0x1201` (target 0x201, an odd address). -/
def memC1 : List Nat := List.replicate 512 0 ++ [0x12, 0x01] ++ List.replicate 1534 0

/-- The machine `Core::new` builds over `memC1` with zeroed registers and
stack. -/
def stC1 : St :=
  { mem := loadFont memC1, reg := List.replicate 16 0,
    stack := List.replicate 16 0, i := 0, pc := 0x200, sp := 0 }

/-- A machine whose stack is empty (`sp = 0`) and whose next instruction
is the return `0x00EE`. -/
def stRet : St :=
  { mem := [0x00, 0xEE] ++ List.replicate 30 0, reg := List.replicate 16 0,
    stack := List.replicate 16 0, i := 0, pc := 0, sp := 0 }

/-- A machine whose program counter points at the last in-bounds memory
index, so only 1 byte is available to fetch. -/
def stC5 : St :=
  { mem := List.replicate 32 0, reg := List.replicate 16 0,
    stack := List.replicate 16 0, i := 0, pc := 31, sp := 0 }

/-- A machine whose next instruction word is `0x0000`, which does not
decode. -/
def stC6 : St :=
  { mem := List.replicate 32 0, reg := List.replicate 16 0,
    stack := List.replicate 16 0, i := 0, pc := 0, sp := 0 }

/-- A small machine whose next instruction is the jump `0x1200` (an even
target). -/
def stJ : St :=
  { mem := [0x12, 0x00] ++ List.replicate 30 0, reg := List.replicate 16 0,
    stack := List.replicate 16 0, i := 0, pc := 0, sp := 0 }

/-- A small machine blocked on the key-wait instruction `0xF50A`. -/
def stWait : St :=
  { mem := [0xF5, 0x0A] ++ List.replicate 30 0, reg := List.replicate 16 0,
    stack := List.replicate 16 0, i := 0, pc := 0, sp := 0 }

/-- A small machine about to execute the BCD store `0xF533` with
`V5 = 123` and `I = 20`. -/
def stB : St :=
  { mem := [0xF5, 0x33] ++ List.replicate 30 0,
    reg := (List.replicate 16 0).set 5 123,
    stack := List.replicate 16 0, i := 20, pc := 0, sp := 0 }

/-- The register operands the decoder placed in an instruction. -/
def instrRegs : Instruction → List Nat
  | .I0NNN _ => []
  | .I00E0 => []
  | .I00EE => []
  | .I1NNN _ => []
  | .I2NNN _ => []
  | .I3XNN x _ => [x]
  | .I4XNN x _ => [x]
  | .I5XY0 x y => [x, y]
  | .I6XNN x _ => [x]
  | .I7XNN x _ => [x]
  | .I8XY0 x y => [x, y]
  | .I8XY1 x y => [x, y]
  | .I8XY2 x y => [x, y]
  | .I8XY3 x y => [x, y]
  | .I8XY4 x y => [x, y]
  | .I8XY5 x y => [x, y]
  | .I8XY6 x y => [x, y]
  | .I8XY7 x y => [x, y]
  | .I8XYE x y => [x, y]
  | .I9XY0 x y => [x, y]
  | .IANNN _ => []
  | .IBNNN _ => []
  | .ICXNN x _ => [x]
  | .IDXYN x y _ => [x, y]
  | .IEX9E x => [x]
  | .IEXA1 x => [x]
  | .IFX07 x => [x]
  | .IFX0A x => [x]
  | .IFX15 x => [x]
  | .IFX18 x => [x]
  | .IFX1E x => [x]
  | .IFX29 x => [x]
  | .IFX33 x => [x]
  | .IFX55 x => [x]
  | .IFX65 x => [x]

/-- The state carried by an execution outcome (partial state on error). -/
def exSt : Except (St × Fault) (St × ModPc) → St
  | .ok (s1, _) => s1
  | .error (s1, _) => s1

/-- The state carried by a bulk load/store outcome. -/
def bsSt : Except (St × Fault) St → St
  | .ok s1 => s1
  | .error (s1, _) => s1

lemma and15_lt (z : Nat) : z &&& 0xF < 16 :=
  Nat.lt_succ_of_le Nat.and_le_right

lemma registerOf_lt (z : Nat) : registerOf z < 16 := and15_lt z

lemma and255_and15 (z : Nat) : (z &&& 0xFF) &&& 0xF = z &&& 0xF := by
  rw [Nat.and_assoc, show (0xFF : Nat) &&& 0xF = 0xF by decide]

lemma mod65536_mod2 (a : Nat) : a % 65536 % 2 = a % 2 :=
  Nat.mod_mod_of_dvd a (by norm_num)

lemma rGet_ok_iff {s : St} {x v : Nat} :
    rGet s x = .ok v ↔ x < s.reg.length ∧ v = s.reg.getD x 0 := by
  unfold rGet; split <;> simp_all [eq_comm]

lemma rSet_ok_iff {s : St} {x v : Nat} {s1 : St} :
    rSet s x v = .ok s1 ↔
      x < s.reg.length ∧ s1 = { s with reg := s.reg.set x (v % 256) } := by
  unfold rSet; split <;> simp_all [eq_comm]

lemma memRead_ok_iff {s : St} {a v : Nat} :
    memRead s a = .ok v ↔ a < s.mem.length ∧ v = s.mem.getD a 0 := by
  unfold memRead; split <;> simp_all [eq_comm]

lemma memWrite_ok_iff {s : St} {a v : Nat} {s1 : St} :
    memWrite s a v = .ok s1 ↔
      a < s.mem.length ∧ s1 = { s with mem := s.mem.set a (v % 256) } := by
  unfold memWrite; split <;> simp_all [eq_comm]

lemma push_ok_iff {s : St} {v : Nat} {s1 : St} :
    push s v = .ok s1 ↔
      s.sp < s.stack.length ∧
      s1 = { s with stack := s.stack.set s.sp (v % 65536),
                    sp := (s.sp + 1) % 256 } := by
  unfold push; split <;> simp_all [eq_comm]

lemma pop_eq (s : St) :
    pop s = ({ s with sp := (s.sp + 255) % 256 },
      if (s.sp + 255) % 256 < s.stack.length then
        .ok (s.stack.getD ((s.sp + 255) % 256) 0)
      else .error (.err .stackOverflow)) := by
  unfold pop; split <;> simp_all

lemma rSet_err {s : St} {x v : Nat} {f : Fault} (h : rSet s x v = .error f) :
    f = .crash .regOob ∧ ¬ x < s.reg.length := by
  unfold rSet at h; split at h <;> simp_all

lemma rGet_err {s : St} {x : Nat} {f : Fault} (h : rGet s x = .error f) :
    f = .crash .regOob ∧ ¬ x < s.reg.length := by
  unfold rGet at h; split at h <;> simp_all

lemma memWrite_err {s : St} {a v : Nat} {f : Fault} (h : memWrite s a v = .error f) :
    f = .crash .memOob := by
  unfold memWrite at h; split at h <;> simp_all

lemma memRead_err {s : St} {a : Nat} {f : Fault} (h : memRead s a = .error f) :
    f = .crash .memOob := by
  unfold memRead at h; split at h <;> simp_all

lemma push_err {s : St} {v : Nat} {f : Fault} (h : push s v = .error f) :
    f = .err .stackOverflow := by
  unfold push at h; split at h <;> simp_all

/-- Bulk store mutates only `mem`, and preserves its length. -/
lemma bulkStore_pres (base : Nat) :
    ∀ (l : List Nat) (s : St),
      (bsSt (bulkStore base s l)).pc = s.pc ∧
      (bsSt (bulkStore base s l)).sp = s.sp ∧
      (bsSt (bulkStore base s l)).stack = s.stack ∧
      (bsSt (bulkStore base s l)).reg = s.reg ∧
      (bsSt (bulkStore base s l)).i = s.i ∧
      (bsSt (bulkStore base s l)).mem.length = s.mem.length := by
  intro l
  induction l with
  | nil => intro s; simp [bulkStore, bsSt]
  | cons idx rest ih =>
    intro s
    simp only [bulkStore]
    cases hg : rGet s (registerOf idx) with
    | error f => simp [bsSt, hg]
    | ok v =>
      cases hw : memWrite s (base + idx) v with
      | error f => simp [bsSt, hg, hw]
      | ok s1 =>
        obtain ⟨_, rfl⟩ := memWrite_ok_iff.mp hw
        simp only [hg, hw]
        simpa using ih { s with mem := s.mem.set (base + idx) (v % 256) }

/-- Bulk load mutates only `reg`, and preserves its length. -/
lemma bulkLoad_pres (base : Nat) :
    ∀ (l : List Nat) (s : St),
      (bsSt (bulkLoad base s l)).pc = s.pc ∧
      (bsSt (bulkLoad base s l)).sp = s.sp ∧
      (bsSt (bulkLoad base s l)).stack = s.stack ∧
      (bsSt (bulkLoad base s l)).mem = s.mem ∧
      (bsSt (bulkLoad base s l)).i = s.i ∧
      (bsSt (bulkLoad base s l)).reg.length = s.reg.length := by
  intro l
  induction l with
  | nil => intro s; simp [bulkLoad, bsSt]
  | cons idx rest ih =>
    intro s
    simp only [bulkLoad]
    cases hg : memRead s (base + idx) with
    | error f => simp [bsSt, hg]
    | ok v =>
      cases hw : rSet s (registerOf idx) v with
      | error f => simp [bsSt, hg, hw]
      | ok s1 =>
        obtain ⟨_, rfl⟩ := rSet_ok_iff.mp hw
        simp only [hg, hw]
        simpa using ih { s with reg := s.reg.set (registerOf idx) (v % 256) }

/-- Bulk store fails only with a register or memory indexing panic. -/
lemma bulkStore_fault (base : Nat) :
    ∀ (l : List Nat) (s s1 : St) (f : Fault),
      bulkStore base s l = .error (s1, f) →
      f = .crash .regOob ∨ f = .crash .memOob := by
  intro l
  induction l with
  | nil => intro s s1 f h; simp [bulkStore] at h
  | cons idx rest ih =>
    intro s s1 f h
    simp only [bulkStore] at h
    cases hg : rGet s (registerOf idx) with
    | error fg =>
      simp only [hg] at h
      simp at h
      obtain ⟨-, rfl⟩ := h
      exact Or.inl (rGet_err hg).1
    | ok v =>
      simp only [hg] at h
      cases hw : memWrite s (base + idx) v with
      | error fw =>
        simp only [hw] at h
        simp at h
        obtain ⟨-, rfl⟩ := h
        exact Or.inr (memWrite_err hw)
      | ok s2 =>
        simp only [hw] at h
        exact ih _ _ _ h

/-- Bulk load fails only with a register or memory indexing panic. -/
lemma bulkLoad_fault (base : Nat) :
    ∀ (l : List Nat) (s s1 : St) (f : Fault),
      bulkLoad base s l = .error (s1, f) →
      f = .crash .regOob ∨ f = .crash .memOob := by
  intro l
  induction l with
  | nil => intro s s1 f h; simp [bulkLoad] at h
  | cons idx rest ih =>
    intro s s1 f h
    simp only [bulkLoad] at h
    cases hg : memRead s (base + idx) with
    | error fg =>
      simp only [hg] at h
      simp at h
      obtain ⟨-, rfl⟩ := h
      exact Or.inr (memRead_err hg)
    | ok v =>
      simp only [hg] at h
      cases hw : rSet s (registerOf idx) v with
      | error fw =>
        simp only [hw] at h
        simp at h
        obtain ⟨-, rfl⟩ := h
        exact Or.inl (rSet_err hw).1
      | ok s2 =>
        simp only [hw] at h
        exact ih _ _ _ h

/-- With a register file of length at least 16, bulk store never raises a
register indexing panic. -/
lemma bulkStore_no_regOob (base : Nat) :
    ∀ (l : List Nat) (s s1 : St) (f : Fault), 16 ≤ s.reg.length →
      bulkStore base s l = .error (s1, f) → f = .crash .memOob := by
  intro l
  induction l with
  | nil => intro s s1 f _ h; simp [bulkStore] at h
  | cons idx rest ih =>
    intro s s1 f hlen h
    simp only [bulkStore] at h
    cases hg : rGet s (registerOf idx) with
    | error fg =>
      exact absurd (Nat.lt_of_lt_of_le (registerOf_lt idx) hlen) (rGet_err hg).2
    | ok v =>
      simp only [hg] at h
      cases hw : memWrite s (base + idx) v with
      | error fw =>
        simp only [hw] at h
        simp at h
        obtain ⟨-, rfl⟩ := h
        exact memWrite_err hw
      | ok s2 =>
        simp only [hw] at h
        obtain ⟨_, rfl⟩ := memWrite_ok_iff.mp hw
        exact ih _ _ _ (by simpa using hlen) h

/-- With a register file of length at least 16, bulk load never raises a
register indexing panic. -/
lemma bulkLoad_no_regOob (base : Nat) :
    ∀ (l : List Nat) (s s1 : St) (f : Fault), 16 ≤ s.reg.length →
      bulkLoad base s l = .error (s1, f) → f = .crash .memOob := by
  intro l
  induction l with
  | nil => intro s s1 f _ h; simp [bulkLoad] at h
  | cons idx rest ih =>
    intro s s1 f hlen h
    simp only [bulkLoad] at h
    cases hg : memRead s (base + idx) with
    | error fg =>
      simp only [hg] at h
      simp at h
      obtain ⟨-, rfl⟩ := h
      exact memRead_err hg
    | ok v =>
      simp only [hg] at h
      cases hw : rSet s (registerOf idx) v with
      | error fw =>
        exact absurd (Nat.lt_of_lt_of_le (registerOf_lt idx) hlen) (rSet_err hw).2
      | ok s2 =>
        simp only [hw] at h
        obtain ⟨_, rfl⟩ := rSet_ok_iff.mp hw
        exact ih _ _ _ (by simpa using hlen) h

/-- No instruction arm of `Core::tick` mutates the program counter; only
the final `pc_after` application does. -/
lemma exec_pc (s : St) (inp : Inputs) (ins : Instruction) :
    (exSt (execInstr s inp ins)).pc = s.pc := by
  cases ins
  case I00EE =>
    simp only [execInstr, pop_eq]
    split <;>
      (rename_i heq
       have h1 := congrArg Prod.fst heq
       simp only [Prod.fst] at h1
       rw [← h1]
       rfl)
  case IFX55 x =>
    have h := (bulkStore_pres s.i (List.range (x + 1)) s).1
    simp only [execInstr]
    cases hb : bulkStore s.i s (List.range (x + 1)) with
    | ok s1 =>
      rw [hb] at h
      simpa [exSt, bsSt] using h
    | error sf =>
      obtain ⟨s1, f⟩ := sf
      rw [hb] at h
      simpa [exSt, bsSt] using h
  case IFX65 x =>
    have h := (bulkLoad_pres s.i (List.range (x + 1)) s).1
    simp only [execInstr]
    cases hb : bulkLoad s.i s (List.range (x + 1)) with
    | ok s1 =>
      rw [hb] at h
      simpa [exSt, bsSt] using h
    | error sf =>
      obtain ⟨s1, f⟩ := sf
      rw [hb] at h
      simpa [exSt, bsSt] using h
  all_goals
    simp only [execInstr]
    repeat' split
    all_goals
      simp_all [exSt, rGet_ok_iff, rSet_ok_iff, memRead_ok_iff, memWrite_ok_iff,
        push_ok_iff, pop_eq]

lemma rGet_err_iff {s : St} {x : Nat} {f : Fault} :
    rGet s x = .error f ↔ ¬ x < s.reg.length ∧ f = .crash .regOob := by
  unfold rGet; split <;> simp_all [eq_comm]

lemma rSet_err_iff {s : St} {x v : Nat} {f : Fault} :
    rSet s x v = .error f ↔ ¬ x < s.reg.length ∧ f = .crash .regOob := by
  unfold rSet; split <;> simp_all [eq_comm]

lemma memRead_err_iff {s : St} {a : Nat} {f : Fault} :
    memRead s a = .error f ↔ ¬ a < s.mem.length ∧ f = .crash .memOob := by
  unfold memRead; split <;> simp_all [eq_comm]

lemma memWrite_err_iff {s : St} {a v : Nat} {f : Fault} :
    memWrite s a v = .error f ↔ ¬ a < s.mem.length ∧ f = .crash .memOob := by
  unfold memWrite; split <;> simp_all [eq_comm]

lemma push_err_iff {s : St} {v : Nat} {f : Fault} :
    push s v = .error f ↔ ¬ s.sp < s.stack.length ∧ f = .err .stackOverflow := by
  unfold push; split <;> simp_all [eq_comm]

/-- How an instruction arm can change the stack pointer: not at all, the
wrapping decrement of `pop` (return), or the increment of a successful
`push` (call). -/
lemma exec_sp (s : St) (inp : Inputs) (ins : Instruction) :
    (exSt (execInstr s inp ins)).sp = s.sp
    ∨ (ins = .I00EE ∧ (exSt (execInstr s inp ins)).sp = (s.sp + 255) % 256)
    ∨ (s.sp < s.stack.length ∧ (exSt (execInstr s inp ins)).sp = (s.sp + 1) % 256) := by
  cases ins
  case I00EE =>
    right; left
    refine ⟨rfl, ?_⟩
    simp only [execInstr, pop_eq]
    split <;>
      (rename_i heq
       have h1 := congrArg Prod.fst heq
       simp only [Prod.fst] at h1
       rw [← h1]
       rfl)
  case I2NNN nnn =>
    simp only [execInstr]
    cases hp : push s s.pc with
    | ok s1 =>
      obtain ⟨hlt, rfl⟩ := push_ok_iff.mp hp
      right; right
      exact ⟨hlt, by simp [exSt]⟩
    | error f =>
      left; simp [exSt]
  case IFX55 x =>
    left
    have h := (bulkStore_pres s.i (List.range (x + 1)) s).2.1
    simp only [execInstr]
    cases hb : bulkStore s.i s (List.range (x + 1)) with
    | ok s1 =>
      rw [hb] at h
      simpa [exSt, bsSt] using h
    | error sf =>
      obtain ⟨s1, f⟩ := sf
      rw [hb] at h
      simpa [exSt, bsSt] using h
  case IFX65 x =>
    left
    have h := (bulkLoad_pres s.i (List.range (x + 1)) s).2.1
    simp only [execInstr]
    cases hb : bulkLoad s.i s (List.range (x + 1)) with
    | ok s1 =>
      rw [hb] at h
      simpa [exSt, bsSt] using h
    | error sf =>
      obtain ⟨s1, f⟩ := sf
      rw [hb] at h
      simpa [exSt, bsSt] using h
  all_goals
    left
    simp only [execInstr]
    repeat' split
    all_goals
      simp_all [exSt, rGet_ok_iff, rSet_ok_iff, memRead_ok_iff, memWrite_ok_iff]

/-- The program-counter dispositions an instruction arm can produce, and
how jump and return targets are tied to the pre-state. -/
lemma exec_disp (s : St) (inp : Inputs) (ins : Instruction) (s1 : St) (disp : ModPc)
    (h : execInstr s inp ins = .ok (s1, disp)) :
    disp = .hold ∨ disp = .normal ∨ disp = .skip 1
    ∨ (∃ nnn, (ins = .I1NNN nnn ∨ ins = .I2NNN nnn) ∧ disp = .jump nnn)
    ∨ (∃ nnn, ins = .IBNNN nnn ∧ disp = .jump ((nnn + s.reg.getD 0 0) % 65536))
    ∨ (ins = .I00EE ∧ disp = .ret (s.stack.getD ((s.sp + 255) % 256) 0)) := by
  cases ins
  case I00EE =>
    simp only [execInstr, pop_eq] at h
    by_cases hc : (s.sp + 255) % 256 < s.stack.length
    · simp only [if_pos hc] at h
      simp at h
      obtain ⟨-, rfl⟩ := h
      simp
    · simp only [if_neg hc] at h
      simp at h
  case I1NNN nnn =>
    simp only [execInstr] at h
    simp at h
    obtain ⟨-, rfl⟩ := h
    simp
  case I2NNN nnn =>
    simp only [execInstr] at h
    cases hp : push s s.pc with
    | ok s2 =>
      simp only [hp] at h
      simp at h
      obtain ⟨-, rfl⟩ := h
      simp
    | error f =>
      simp only [hp] at h
      simp at h
  case IBNNN nnn =>
    simp only [execInstr] at h
    cases hg : rGet s 0 with
    | ok v0 =>
      obtain ⟨-, rfl⟩ := rGet_ok_iff.mp hg
      simp only [hg] at h
      simp at h
      obtain ⟨-, rfl⟩ := h
      simp
    | error f =>
      simp only [hg] at h
      simp at h
  case IFX55 x =>
    simp only [execInstr] at h
    cases hb : bulkStore s.i s (List.range (x + 1)) with
    | ok s2 =>
      simp only [hb] at h
      simp at h
      obtain ⟨-, rfl⟩ := h
      simp
    | error sf =>
      obtain ⟨s2, f⟩ := sf
      simp only [hb] at h
      simp at h
  case IFX65 x =>
    simp only [execInstr] at h
    cases hb : bulkLoad s.i s (List.range (x + 1)) with
    | ok s2 =>
      simp only [hb] at h
      simp at h
      obtain ⟨-, rfl⟩ := h
      simp
    | error sf =>
      obtain ⟨s2, f⟩ := sf
      simp only [hb] at h
      simp at h
  all_goals
    simp only [execInstr] at h
    repeat' split at h
    all_goals
      simp_all [rGet_ok_iff, rSet_ok_iff, memRead_ok_iff, memWrite_ok_iff]

/-- The faults an instruction arm can raise: `StackOverflow` from
push/pop, or an indexing/`unimplemented!()` panic — never a decode
error. -/
lemma exec_fault (s : St) (inp : Inputs) (ins : Instruction) (s1 : St) (f : Fault)
    (h : execInstr s inp ins = .error (s1, f)) :
    f = .err .stackOverflow ∨ f = .crash .regOob ∨ f = .crash .memOob
    ∨ f = .crash .unimplemented := by
  cases ins
  case I00EE =>
    simp only [execInstr, pop_eq] at h
    by_cases hc : (s.sp + 255) % 256 < s.stack.length
    · simp only [if_pos hc] at h
      simp at h
    · simp only [if_neg hc] at h
      simp at h
      obtain ⟨-, rfl⟩ := h
      simp
  case IFX55 x =>
    simp only [execInstr] at h
    cases hb : bulkStore s.i s (List.range (x + 1)) with
    | ok s2 =>
      simp only [hb] at h
      simp at h
    | error sf =>
      obtain ⟨s2, f2⟩ := sf
      simp only [hb] at h
      simp at h
      obtain ⟨-, rfl⟩ := h
      rcases bulkStore_fault s.i (List.range (x + 1)) s s2 f2 hb with h2 | h2 <;> simp [h2]
  case IFX65 x =>
    simp only [execInstr] at h
    cases hb : bulkLoad s.i s (List.range (x + 1)) with
    | ok s2 =>
      simp only [hb] at h
      simp at h
    | error sf =>
      obtain ⟨s2, f2⟩ := sf
      simp only [hb] at h
      simp at h
      obtain ⟨-, rfl⟩ := h
      rcases bulkLoad_fault s.i (List.range (x + 1)) s s2 f2 hb with h2 | h2 <;> simp [h2]
  all_goals
    simp only [execInstr] at h
    repeat' split at h
    all_goals
      simp_all [rGet_err_iff, rSet_err_iff, memRead_err_iff, memWrite_err_iff,
        push_err_iff]

lemma rGet_bound_contra {s : St} {x : Nat} {f : Fault}
    (hlen : 16 ≤ s.reg.length) (hx : x < 16) (h : rGet s x = .error f) : False :=
  absurd (Nat.lt_of_lt_of_le hx hlen) (rGet_err h).2

lemma rSet_bound_contra {s : St} {x v : Nat} {f : Fault}
    (hlen : 16 ≤ s.reg.length) (hx : x < 16) (h : rSet s x v = .error f) : False :=
  absurd (Nat.lt_of_lt_of_le hx hlen) (rSet_err h).2

/-- With a register file of length at least 16 and decoder-bounded
register operands, no instruction arm raises a register indexing panic:
every register index used is an operand, the hard-coded `VF` (15), the
hard-coded `V0` (0), or a masked loop counter. -/
lemma exec_no_regOob (s : St) (inp : Inputs) (ins : Instruction)
    (hlen : 16 ≤ s.reg.length) (hb : ∀ r ∈ instrRegs ins, r < 16) :
    ∀ s1, execInstr s inp ins ≠ .error (s1, .crash .regOob) := by
  intro s1 h
  cases ins
  case I0NNN nnn => simp [execInstr] at h
  case I00E0 => simp [execInstr] at h
  case I00EE =>
    simp only [execInstr, pop_eq] at h
    by_cases hc : (s.sp + 255) % 256 < s.stack.length
    · simp only [if_pos hc] at h
      simp at h
    · simp only [if_neg hc] at h
      simp at h
  case I1NNN nnn => simp [execInstr] at h
  case I2NNN nnn =>
    simp only [execInstr] at h
    cases hp : push s s.pc with
    | ok s2 => simp [hp] at h
    | error f2 =>
      simp only [hp] at h
      simp at h
      exact absurd ((push_err hp) ▸ h.2.symm) (by simp)
  case IANNN nnn => simp [execInstr] at h
  case IBNNN nnn =>
    simp only [execInstr] at h
    cases hg : rGet s 0 with
    | ok v => simp [hg] at h
    | error f2 => exact rGet_bound_contra hlen (by norm_num) hg
  case I3XNN x vv =>
    simp only [execInstr] at h
    cases hg : rGet s x with
    | ok v => simp [hg] at h
    | error f2 => exact rGet_bound_contra hlen (hb x (by simp [instrRegs])) hg
  case I4XNN x vv =>
    simp only [execInstr] at h
    cases hg : rGet s x with
    | ok v => simp [hg] at h
    | error f2 => exact rGet_bound_contra hlen (hb x (by simp [instrRegs])) hg
  case IEX9E x =>
    simp only [execInstr] at h
    cases hg : rGet s x with
    | ok v => simp [hg] at h
    | error f2 => exact rGet_bound_contra hlen (hb x (by simp [instrRegs])) hg
  case IEXA1 x =>
    simp only [execInstr] at h
    cases hg : rGet s x with
    | ok v => simp [hg] at h
    | error f2 => exact rGet_bound_contra hlen (hb x (by simp [instrRegs])) hg
  case IFX15 x =>
    simp only [execInstr] at h
    cases hg : rGet s x with
    | ok v => simp [hg] at h
    | error f2 => exact rGet_bound_contra hlen (hb x (by simp [instrRegs])) hg
  case IFX18 x =>
    simp only [execInstr] at h
    cases hg : rGet s x with
    | ok v => simp [hg] at h
    | error f2 => exact rGet_bound_contra hlen (hb x (by simp [instrRegs])) hg
  case IFX1E x =>
    simp only [execInstr] at h
    cases hg : rGet s x with
    | ok v => simp [hg] at h
    | error f2 => exact rGet_bound_contra hlen (hb x (by simp [instrRegs])) hg
  case IFX29 x =>
    simp only [execInstr] at h
    cases hg : rGet s x with
    | ok v => simp [hg] at h
    | error f2 => exact rGet_bound_contra hlen (hb x (by simp [instrRegs])) hg
  case I5XY0 x y =>
    simp only [execInstr] at h
    cases hg : rGet s x with
    | error f2 => exact rGet_bound_contra hlen (hb x (by simp [instrRegs])) hg
    | ok vx =>
      simp only [hg] at h
      cases hg2 : rGet s y with
      | error f2 => exact rGet_bound_contra hlen (hb y (by simp [instrRegs])) hg2
      | ok vy => simp [hg2] at h
  case I9XY0 x y =>
    simp only [execInstr] at h
    cases hg : rGet s x with
    | error f2 => exact rGet_bound_contra hlen (hb x (by simp [instrRegs])) hg
    | ok vx =>
      simp only [hg] at h
      cases hg2 : rGet s y with
      | error f2 => exact rGet_bound_contra hlen (hb y (by simp [instrRegs])) hg2
      | ok vy => simp [hg2] at h
  case I6XNN x vv =>
    simp only [execInstr] at h
    cases hw : rSet s x vv with
    | ok s2 => simp [hw] at h
    | error f2 => exact rSet_bound_contra hlen (hb x (by simp [instrRegs])) hw
  case ICXNN x vv =>
    simp only [execInstr] at h
    cases hw : rSet s x (inp.randomByte &&& vv) with
    | ok s2 => simp [hw] at h
    | error f2 => exact rSet_bound_contra hlen (hb x (by simp [instrRegs])) hw
  case IFX07 x =>
    simp only [execInstr] at h
    cases hw : rSet s x inp.delayVal with
    | ok s2 => simp [hw] at h
    | error f2 => exact rSet_bound_contra hlen (hb x (by simp [instrRegs])) hw
  case I7XNN x vv =>
    simp only [execInstr] at h
    cases hg : rGet s x with
    | error f2 => exact rGet_bound_contra hlen (hb x (by simp [instrRegs])) hg
    | ok v =>
      simp only [hg] at h
      cases hw : rSet s x ((v + vv) % 256) with
      | ok s2 => simp [hw] at h
      | error f2 => exact rSet_bound_contra hlen (hb x (by simp [instrRegs])) hw
  case I8XY0 x y =>
    simp only [execInstr] at h
    cases hg : rGet s y with
    | error f2 => exact rGet_bound_contra hlen (hb y (by simp [instrRegs])) hg
    | ok vy =>
      simp only [hg] at h
      cases hw : rSet s x vy with
      | ok s2 => simp [hw] at h
      | error f2 => exact rSet_bound_contra hlen (hb x (by simp [instrRegs])) hw
  case I8XY1 x y =>
    simp only [execInstr] at h
    cases hg : rGet s x with
    | error f2 => exact rGet_bound_contra hlen (hb x (by simp [instrRegs])) hg
    | ok vx =>
      simp only [hg] at h
      cases hg2 : rGet s y with
      | error f2 => exact rGet_bound_contra hlen (hb y (by simp [instrRegs])) hg2
      | ok vy =>
        simp only [hg2] at h
        cases hw : rSet s x (vx ||| vy) with
        | ok s2 => simp [hw] at h
        | error f2 => exact rSet_bound_contra hlen (hb x (by simp [instrRegs])) hw
  case I8XY2 x y =>
    simp only [execInstr] at h
    cases hg : rGet s x with
    | error f2 => exact rGet_bound_contra hlen (hb x (by simp [instrRegs])) hg
    | ok vx =>
      simp only [hg] at h
      cases hg2 : rGet s y with
      | error f2 => exact rGet_bound_contra hlen (hb y (by simp [instrRegs])) hg2
      | ok vy =>
        simp only [hg2] at h
        cases hw : rSet s x (vx &&& vy) with
        | ok s2 => simp [hw] at h
        | error f2 => exact rSet_bound_contra hlen (hb x (by simp [instrRegs])) hw
  case I8XY3 x y =>
    simp only [execInstr] at h
    cases hg : rGet s x with
    | error f2 => exact rGet_bound_contra hlen (hb x (by simp [instrRegs])) hg
    | ok vx =>
      simp only [hg] at h
      cases hg2 : rGet s y with
      | error f2 => exact rGet_bound_contra hlen (hb y (by simp [instrRegs])) hg2
      | ok vy =>
        simp only [hg2] at h
        cases hw : rSet s x (vx ^^^ vy) with
        | ok s2 => simp [hw] at h
        | error f2 => exact rSet_bound_contra hlen (hb x (by simp [instrRegs])) hw
  case I8XY4 x y =>
    simp only [execInstr] at h
    cases hg : rGet s x with
    | error f2 => exact rGet_bound_contra hlen (hb x (by simp [instrRegs])) hg
    | ok vx =>
      simp only [hg] at h
      cases hg2 : rGet s y with
      | error f2 => exact rGet_bound_contra hlen (hb y (by simp [instrRegs])) hg2
      | ok vy =>
        simp only [hg2] at h
        cases hw : rSet s x ((vx + vy) % 256) with
        | error f2 => exact rSet_bound_contra hlen (hb x (by simp [instrRegs])) hw
        | ok s2 =>
          simp only [hw] at h
          have hlen2 : 16 ≤ s2.reg.length := by
            rw [(rSet_ok_iff.mp hw).2]; simpa using hlen
          cases hw2 : rSet s2 15 (if 256 ≤ vx + vy then 1 else 0) with
          | ok s3 => simp [hw2] at h
          | error f2 => exact rSet_bound_contra hlen2 (by norm_num) hw2
  case I8XY5 x y =>
    simp only [execInstr] at h
    cases hg : rGet s x with
    | error f2 => exact rGet_bound_contra hlen (hb x (by simp [instrRegs])) hg
    | ok vx =>
      simp only [hg] at h
      cases hg2 : rGet s y with
      | error f2 => exact rGet_bound_contra hlen (hb y (by simp [instrRegs])) hg2
      | ok vy =>
        simp only [hg2] at h
        cases hw : rSet s x ((vx + 256 - vy % 256) % 256) with
        | error f2 => exact rSet_bound_contra hlen (hb x (by simp [instrRegs])) hw
        | ok s2 =>
          simp only [hw] at h
          have hlen2 : 16 ≤ s2.reg.length := by
            rw [(rSet_ok_iff.mp hw).2]; simpa using hlen
          cases hw2 : rSet s2 15 (if vx < vy then 0 else 1) with
          | ok s3 => simp [hw2] at h
          | error f2 => exact rSet_bound_contra hlen2 (by norm_num) hw2
  case I8XY7 x y =>
    simp only [execInstr] at h
    cases hg : rGet s y with
    | error f2 => exact rGet_bound_contra hlen (hb y (by simp [instrRegs])) hg
    | ok vy =>
      simp only [hg] at h
      cases hg2 : rGet s x with
      | error f2 => exact rGet_bound_contra hlen (hb x (by simp [instrRegs])) hg2
      | ok vx =>
        simp only [hg2] at h
        cases hw : rSet s x ((vy + 256 - vx % 256) % 256) with
        | error f2 => exact rSet_bound_contra hlen (hb x (by simp [instrRegs])) hw
        | ok s2 =>
          simp only [hw] at h
          have hlen2 : 16 ≤ s2.reg.length := by
            rw [(rSet_ok_iff.mp hw).2]; simpa using hlen
          cases hw2 : rSet s2 15 (if vy < vx then 0 else 1) with
          | ok s3 => simp [hw2] at h
          | error f2 => exact rSet_bound_contra hlen2 (by norm_num) hw2
  case I8XY6 x y =>
    simp only [execInstr] at h
    cases hg : rGet s x with
    | error f2 => exact rGet_bound_contra hlen (hb x (by simp [instrRegs])) hg
    | ok vx =>
      simp only [hg] at h
      cases hw : rSet s 15 (vx &&& 0x01) with
      | error f2 => exact rSet_bound_contra hlen (by norm_num) hw
      | ok s2 =>
        simp only [hw] at h
        have hlen2 : 16 ≤ s2.reg.length := by
          rw [(rSet_ok_iff.mp hw).2]; simpa using hlen
        cases hg2 : rGet s2 x with
        | error f2 =>
          exact rGet_bound_contra hlen2 (hb x (by simp [instrRegs])) hg2
        | ok vx1 =>
          simp only [hg2] at h
          cases hw2 : rSet s2 x (vx1 / 2) with
          | ok s3 => simp [hw2] at h
          | error f2 =>
            exact rSet_bound_contra hlen2 (hb x (by simp [instrRegs])) hw2
  case I8XYE x y =>
    simp only [execInstr] at h
    cases hg : rGet s x with
    | error f2 => exact rGet_bound_contra hlen (hb x (by simp [instrRegs])) hg
    | ok vx =>
      simp only [hg] at h
      cases hw : rSet s x ((vx * 2) % 256) with
      | error f2 => exact rSet_bound_contra hlen (hb x (by simp [instrRegs])) hw
      | ok s2 =>
        simp only [hw] at h
        have hlen2 : 16 ≤ s2.reg.length := by
          rw [(rSet_ok_iff.mp hw).2]; simpa using hlen
        cases hw2 : rSet s2 15 (if 256 ≤ vx * 2 then 1 else 0) with
        | ok s3 => simp [hw2] at h
        | error f2 => exact rSet_bound_contra hlen2 (by norm_num) hw2
  case IDXYN x y v =>
    simp only [execInstr] at h
    cases hg : rGet s x with
    | error f2 => exact rGet_bound_contra hlen (hb x (by simp [instrRegs])) hg
    | ok vx =>
      simp only [hg] at h
      cases hg2 : rGet s y with
      | error f2 => exact rGet_bound_contra hlen (hb y (by simp [instrRegs])) hg2
      | ok vy =>
        simp only [hg2] at h
        by_cases hc : s.i + v ≤ s.mem.length
        · simp only [if_pos hc] at h
          cases hw : rSet s 15 (if inp.collide then 1 else 0) with
          | ok s2 => simp [hw] at h
          | error f2 => exact rSet_bound_contra hlen (by norm_num) hw
        · simp only [if_neg hc] at h
          simp at h
  case IFX0A x =>
    simp only [execInstr] at h
    cases hp : popNextIdx inp.edges with
    | none => simp [hp] at h
    | some p =>
      obtain ⟨idx, rest⟩ := p
      simp only [hp] at h
      cases hw : rSet s x idx with
      | ok s2 => simp [hw] at h
      | error f2 => exact rSet_bound_contra hlen (hb x (by simp [instrRegs])) hw
  case IFX33 x =>
    simp only [execInstr] at h
    cases hg : rGet s x with
    | error f2 => exact rGet_bound_contra hlen (hb x (by simp [instrRegs])) hg
    | ok v =>
      simp only [hg] at h
      cases hw : memWrite s s.i (bcd v).1 with
      | error f2 => simp only [hw] at h; simp [memWrite_err hw] at h
      | ok s2 =>
        simp only [hw] at h
        cases hw2 : memWrite s2 (s2.i + 1) (bcd v).2.1 with
        | error f2 => simp only [hw2] at h; simp [memWrite_err hw2] at h
        | ok s3 =>
          simp only [hw2] at h
          cases hw3 : memWrite s3 (s3.i + 2) (bcd v).2.2 with
          | error f2 => simp only [hw3] at h; simp [memWrite_err hw3] at h
          | ok s4 => simp [hw3] at h
  case IFX55 x =>
    simp only [execInstr] at h
    cases hbk : bulkStore s.i s (List.range (x + 1)) with
    | ok s2 =>
      simp only [hbk] at h
      simp at h
    | error sf =>
      obtain ⟨s2, f2⟩ := sf
      simp only [hbk] at h
      simp at h
      have := bulkStore_no_regOob s.i (List.range (x + 1)) s s2 f2 hlen hbk
      simp [this] at h
  case IFX65 x =>
    simp only [execInstr] at h
    cases hbk : bulkLoad s.i s (List.range (x + 1)) with
    | ok s2 =>
      simp only [hbk] at h
      simp at h
    | error sf =>
      obtain ⟨s2, f2⟩ := sf
      simp only [hbk] at h
      simp at h
      have := bulkLoad_no_regOob s.i (List.range (x + 1)) s s2 f2 hlen hbk
      simp [this] at h

/-- A successful fetch means some opcode decoded successfully. -/
lemma fetch_ok_decode {s : St} {ins : Instruction} (h : fetch s = .ok ins) :
    ∃ op, decode op = .ok ins := by
  unfold fetch at h
  split at h
  · unfold instructionTryFrom at h
    split at h
    · rename_i b0 b1 rest
      simp only [] at h
      split at h
      · rename_i ins2 hd
        simp at h
        exact ⟨_, h ▸ hd⟩
      · simp at h
    · simp at h
  · simp at h

/-- A failed fetch is an out-of-range slicing panic or a decode
failure. -/
lemma fetch_err {s : St} {f : Fault} (h : fetch s = .error f) :
    f = .crash .fetchOob ∨ ∃ op, f = .err (.invalidInstruction op) := by
  unfold fetch at h
  split at h
  · unfold instructionTryFrom at h
    split at h
    · rename_i b0 b1 rest
      simp only [] at h
      split at h
      · simp at h
      · simp at h
        exact Or.inr ⟨_, h.symm⟩
    · simp at h
      exact Or.inl h.symm
  · simp at h
    exact Or.inl h.symm

lemma regOf_byte (z : Nat) : registerOf (z &&& 0xFF) = z &&& 0xF := and255_and15 z

lemma decode0_regs {nnn : Nat} {ins : Instruction} (h : decode0 nnn = .ok ins) :
    instrRegs ins = [] := by
  unfold decode0 at h
  split at h
  · injection h with hins; subst hins; rfl
  · split at h
    · injection h with hins; subst hins; rfl
    · split at h
      · injection h with hins; subst hins; rfl
      · cases h

lemma decode5_regs {x y v : Nat} {ins : Instruction} (h : decode5 x y v = .ok ins) :
    ∀ r ∈ instrRegs ins, r = x ∨ r = y := by
  unfold decode5 at h
  split at h
  · injection h with hins; subst hins
    intro r hr
    simp only [instrRegs, List.mem_cons, List.not_mem_nil, or_false] at hr
    tauto
  · cases h

lemma decode8_regs {x y v : Nat} {ins : Instruction} (h : decode8 x y v = .ok ins) :
    ∀ r ∈ instrRegs ins, r = x ∨ r = y := by
  unfold decode8 at h
  split at h
  all_goals cases h
  all_goals intro r hr
  all_goals simp only [instrRegs, List.mem_cons, List.not_mem_nil, or_false] at hr
  all_goals tauto

lemma decode9_regs {x y v : Nat} {ins : Instruction} (h : decode9 x y v = .ok ins) :
    ∀ r ∈ instrRegs ins, r = x ∨ r = y := by
  unfold decode9 at h
  split at h
  · injection h with hins; subst hins
    intro r hr
    simp only [instrRegs, List.mem_cons, List.not_mem_nil, or_false] at hr
    tauto
  · cases h

lemma decodeE_regs {x vv : Nat} {ins : Instruction} (h : decodeE x vv = .ok ins) :
    ∀ r ∈ instrRegs ins, r = x := by
  unfold decodeE at h
  split at h
  all_goals cases h
  all_goals intro r hr
  all_goals simp only [instrRegs, List.mem_cons, List.not_mem_nil, or_false] at hr
  all_goals exact hr

lemma decodeF_regs {x vv : Nat} {ins : Instruction} (h : decodeF x vv = .ok ins) :
    ∀ r ∈ instrRegs ins, r = x := by
  unfold decodeF at h
  split at h
  all_goals cases h
  all_goals intro r hr
  all_goals simp only [instrRegs, List.mem_cons, List.not_mem_nil, or_false] at hr
  all_goals exact hr

/-- Every register operand the decoder produces is the low nibble of the
relevant opcode byte: the high byte for X operands, the shifted byte for
Y operands; in particular every operand is below 16. -/
lemma decode_regs (op : Nat) (ins : Instruction) (h : decode op = .ok ins) :
    ∀ r ∈ instrRegs ins,
      (r = (op >>> 8) &&& 0xF ∨ r = (op >>> 4) &&& 0xF) ∧ r < 16 := by
  simp only [decode, nibbles] at h
  split at h
  -- 0x0
  case h_1 =>
    intro r hr
    simp [decode0_regs h] at hr
  -- 0x1
  case h_2 =>
    cases h
    intro r hr
    simp [instrRegs] at hr
  -- 0x2
  case h_3 =>
    cases h
    intro r hr
    simp [instrRegs] at hr
  -- 0x3
  case h_4 =>
    cases h
    intro r hr
    simp only [instrRegs, List.mem_cons, List.not_mem_nil, or_false] at hr
    subst hr
    exact ⟨Or.inl (regOf_byte _), registerOf_lt _⟩
  -- 0x4
  case h_5 =>
    cases h
    intro r hr
    simp only [instrRegs, List.mem_cons, List.not_mem_nil, or_false] at hr
    subst hr
    exact ⟨Or.inl (regOf_byte _), registerOf_lt _⟩
  -- 0x5
  case h_6 =>
    intro r hr
    rcases decode5_regs h r hr with rfl | rfl
    · exact ⟨Or.inl (regOf_byte _), registerOf_lt _⟩
    · exact ⟨Or.inr (regOf_byte _), registerOf_lt _⟩
  -- 0x6
  case h_7 =>
    cases h
    intro r hr
    simp only [instrRegs, List.mem_cons, List.not_mem_nil, or_false] at hr
    subst hr
    exact ⟨Or.inl (regOf_byte _), registerOf_lt _⟩
  -- 0x7
  case h_8 =>
    cases h
    intro r hr
    simp only [instrRegs, List.mem_cons, List.not_mem_nil, or_false] at hr
    subst hr
    exact ⟨Or.inl (regOf_byte _), registerOf_lt _⟩
  -- 0x8
  case h_9 =>
    intro r hr
    rcases decode8_regs h r hr with rfl | rfl
    · exact ⟨Or.inl (regOf_byte _), registerOf_lt _⟩
    · exact ⟨Or.inr (regOf_byte _), registerOf_lt _⟩
  -- 0x9
  case h_10 =>
    intro r hr
    rcases decode9_regs h r hr with rfl | rfl
    · exact ⟨Or.inl (regOf_byte _), registerOf_lt _⟩
    · exact ⟨Or.inr (regOf_byte _), registerOf_lt _⟩
  -- 0xA
  case h_11 =>
    cases h
    intro r hr
    simp [instrRegs] at hr
  -- 0xB
  case h_12 =>
    cases h
    intro r hr
    simp [instrRegs] at hr
  -- 0xC
  case h_13 =>
    cases h
    intro r hr
    simp only [instrRegs, List.mem_cons, List.not_mem_nil, or_false] at hr
    subst hr
    exact ⟨Or.inl (regOf_byte _), registerOf_lt _⟩
  -- 0xD
  case h_14 =>
    cases h
    intro r hr
    simp only [instrRegs, List.mem_cons, List.not_mem_nil, or_false] at hr
    rcases hr with rfl | rfl
    · exact ⟨Or.inl (regOf_byte _), registerOf_lt _⟩
    · exact ⟨Or.inr (regOf_byte _), registerOf_lt _⟩
  -- 0xE
  case h_15 =>
    intro r hr
    obtain rfl := decodeE_regs h r hr
    exact ⟨Or.inl (regOf_byte _), registerOf_lt _⟩
  -- 0xF
  case h_16 =>
    intro r hr
    obtain rfl := decodeF_regs h r hr
    exact ⟨Or.inl (regOf_byte _), registerOf_lt _⟩
  -- catchall
  case h_17 =>
    cases h


lemma applyPc_sp (s : St) (d : ModPc) : (applyPc s d).sp = s.sp := by
  cases d <;> rfl

lemma and_shift_ne_zero (e i : Nat) :
    (e &&& (1 <<< i) ≠ 0) ↔ e.testBit i = true := by
  rw [Nat.shiftLeft_eq, one_mul, Nat.and_two_pow]
  have h2 : (2 : Nat) ^ i ≠ 0 := (pow_pos (by norm_num) i).ne'
  cases h : e.testBit i <;> simp [h, h2]

/-- A successful scan of `pop_next_idx`'s loop over `range' k n` returns
the first set bit at or after `k`, cleared from the set. -/
lemma popLoop_some (e : Nat) :
    ∀ (n k idx e1 : Nat), popLoop e (List.range' k n) = some (idx, e1) →
      e1 = e ^^^ (1 <<< idx) ∧ e.testBit idx = true ∧ k ≤ idx ∧ idx < k + n ∧
      ∀ j, k ≤ j → j < idx → e.testBit j = false := by
  intro n
  induction n with
  | zero => intro k idx e1 h; simp [popLoop] at h
  | succ n ih =>
    intro k idx e1 h
    rw [List.range'_succ] at h
    simp only [popLoop] at h
    split at h
    · rename_i hbit
      simp only [Option.some.injEq, Prod.mk.injEq] at h
      obtain ⟨rfl, rfl⟩ := h
      exact ⟨rfl, (and_shift_ne_zero e k).mp hbit, Nat.le_refl k,
        Nat.lt_of_lt_of_le (Nat.lt_succ_self k) (by omega),
        fun j hj1 hj2 => absurd (Nat.lt_of_lt_of_le hj2 hj1) (Nat.lt_irrefl j)⟩
    · rename_i hbit
      obtain ⟨h1, h2, h3, h4, h5⟩ := ih (k + 1) idx e1 h
      refine ⟨h1, h2, by omega, by omega, fun j hj1 hj2 => ?_⟩
      rcases Nat.eq_or_lt_of_le hj1 with rfl | hj
      · cases hb : e.testBit k with
        | false => rfl
        | true => exact absurd ((and_shift_ne_zero e k).mpr hb) hbit
      · exact h5 j hj hj2

/-- A failed scan means no bit in the scanned range was set. -/
lemma popLoop_none (e : Nat) :
    ∀ (n k : Nat), popLoop e (List.range' k n) = none →
      ∀ j, k ≤ j → j < k + n → e.testBit j = false := by
  intro n
  induction n with
  | zero => intro k h j hj1 hj2; omega
  | succ n ih =>
    intro k h j hj1 hj2
    rw [List.range'_succ] at h
    simp only [popLoop] at h
    split at h
    · cases h
    · rename_i hbit
      rcases Nat.eq_or_lt_of_le hj1 with rfl | hj
      · cases hb : e.testBit k with
        | false => rfl
        | true => exact absurd ((and_shift_ne_zero e k).mpr hb) hbit
      · exact ih (k + 1) h j hj (by omega)

/-- On a non-empty 16-bit edge set, `pop_next_idx` pops exactly the
lowest set bit: it is returned and cleared, and no lower bit is set. -/
lemma popNextIdx_spec (e : Nat) (he : e ≠ 0) (hlt : e < 65536) :
    ∃ idx, popNextIdx e = some (idx, e ^^^ (1 <<< idx)) ∧ idx < 16 ∧
      e.testBit idx = true ∧ ∀ j, j < idx → e.testBit j = false := by
  unfold popNextIdx
  rw [if_neg he, List.range_eq_range']
  cases hp : popLoop e (List.range' 0 16) with
  | some p =>
    obtain ⟨idx, e1⟩ := p
    obtain ⟨rfl, h2, -, h4, h5⟩ := popLoop_some e 16 0 idx e1 hp
    exact ⟨idx, rfl, by omega, h2, fun j hj => h5 j (Nat.zero_le j) hj⟩
  | none =>
    exfalso
    apply he
    apply Nat.eq_of_testBit_eq
    intro j
    rw [Nat.zero_testBit]
    by_cases hj : j < 16
    · exact popLoop_none e 16 0 hp j (Nat.zero_le j) (by omega)
    · have h16 : (65536 : Nat) = 2 ^ 16 := by norm_num
      exact Nat.testBit_eq_false_of_lt
        (Nat.lt_of_lt_of_le (h16 ▸ hlt) (Nat.pow_le_pow_right (by norm_num) (by omega)))

/-- `bcd` reconstructs its input for every byte value. -/
lemma bcd_reconstruct : ∀ v < 256,
    (bcd v).1 * 100 + (bcd v).2.1 * 10 + (bcd v).2.2 = v := by
  intro v hv
  show v / 100 * 100 + (v - v / 100 * 100) / 10 * 10 +
    (v - v / 100 * 100 - (v - v / 100 * 100) / 10 * 10) = v
  omega

/-- C4: executing the return instruction (0x00EE) in a state whose
16-entry stack is empty (`sp = 0`) makes the step fail with the
`StackOverflow` error. -/
theorem ret_empty_stack_overflow (s : St) (inp : Inputs)
    (hst : s.stack.length = 16) (hsp : s.sp = 0)
    (hf : fetch s = .ok .I00EE) :
    (tick s inp).2 = .error (.err .stackOverflow) := by
  unfold tick
  rw [hf]
  simp only [execInstr, pop_eq, hsp]
  have hc : ¬ (0 + 255) % 256 < s.stack.length := by rw [hst]; norm_num
  rw [if_neg hc]

/-- C4 witness: the machine whose next instruction is `0x00EE` and whose
stack is empty steps to a `StackOverflow` error. -/
theorem ret_empty_stack_overflow_witness :
    stRet.stack.length = 16 ∧ stRet.sp = 0 ∧ fetch stRet = .ok .I00EE ∧
    (tick stRet inp0).2 = .error (.err .stackOverflow) :=
  ⟨by decide, by decide, by decide,
    ret_empty_stack_overflow stRet inp0 (by decide) (by decide) (by decide)⟩

/-- C5: with only one byte available at the program counter, the step
aborts with the out-of-range slicing panic of `instruction[0..2]` — the
`InvalidAlignment` error is not returned (the `TryFromSliceError`
conversion is dead code). -/
theorem short_fetch_crashes :
    (tick stC5 inp0).2 = .error (.crash .fetchOob)
    ∧ (tick stC5 inp0).2 ≠ .error (.err .invalidAlignment) := by
  decide

/-- C6: whenever `Core::tick` returns a fetch or decode error
(`InvalidAlignment` or `InvalidInstruction`), the machine state is
exactly what it was before the call. -/
theorem decode_error_preserves_state (s : St) (inp : Inputs)
    (h : (tick s inp).2 = .error (.err .invalidAlignment)
       ∨ ∃ op, (tick s inp).2 = .error (.err (.invalidInstruction op))) :
    (tick s inp).1 = s := by
  unfold tick at h ⊢
  cases hf : fetch s with
  | error f => simp only [hf]
  | ok ins =>
    simp only [hf] at h ⊢
    cases he : execInstr s inp ins with
    | ok sd =>
      obtain ⟨s1, d⟩ := sd
      simp only [he] at h
      simp at h
    | error sf =>
      obtain ⟨s1, f⟩ := sf
      simp only [he] at h
      rcases exec_fault s inp ins s1 f he with hF | hF | hF | hF <;> subst hF <;>
        simp at h

/-- C6 witness: the machine whose next word is the undecodable `0x0000`
errors with `InvalidInstruction 0` and keeps its state unchanged. -/
theorem decode_error_preserves_state_witness :
    ((tick stC6 inp0).2 = .error (.err .invalidAlignment)
      ∨ ∃ op, (tick stC6 inp0).2 = .error (.err (.invalidInstruction op)))
    ∧ (tick stC6 inp0).1 = stC6 :=
  ⟨Or.inr ⟨0, by decide⟩,
    decode_error_preserves_state stC6 inp0 (Or.inr ⟨0, by decide⟩)⟩

/-- C7: `Core::new`'s size assertion is `mem.len() >= 2048`, so a
2048-byte memory slice — shorter than the 4096 bytes the specification
requires — is accepted by construction. -/
theorem newCore_accepts_2048 :
    (newCore (List.replicate 2048 0) (List.replicate 16 0)
        (List.replicate 16 0)).isSome = true
    ∧ (List.replicate 2048 (0 : Nat)).length = 2048
    ∧ (2048 : Nat) < 4096 := by
  refine ⟨?_, by simp only [List.length_replicate], by norm_num⟩
  unfold newCore
  rw [if_pos]
  · rfl
  · refine ⟨?_, ?_, ?_⟩ <;> simp only [List.length_replicate] <;> norm_num

lemma tick_fetch_err {s : St} {inp : Inputs} {f : Fault}
    (hf : fetch s = .error f) : tick s inp = (s, .error f) := by
  unfold tick; rw [hf]

lemma tick_fetch_ok {s : St} {inp : Inputs} {ins : Instruction}
    (hf : fetch s = .ok ins) :
    tick s inp =
      match execInstr s inp ins with
      | .ok (s1, disp) => (applyPc s1 disp, .ok ())
      | .error (s1, f) => (s1, .error f) := by
  unfold tick; rw [hf]

lemma memC1_drop80 :
    memC1.drop 80 = List.replicate 432 0 ++ ([0x12, 0x01] ++ List.replicate 1534 0) := by
  unfold memC1
  rw [List.append_assoc, show (512 : Nat) = 80 + 432 by norm_num,
    List.replicate_add, List.append_assoc]
  refine List.drop_left' ?_
  rw [List.length_replicate]

lemma fetch_stC1 : fetch stC1 = .ok (.I1NNN 0x201) := by
  have h1 : fontData.length = 80 := rfl
  have h2 : memC1.length = 2048 := by
    unfold memC1
    rw [List.length_append, List.length_append, List.length_replicate,
      List.length_replicate]
    norm_num
  have hdrop : stC1.mem.drop 512 = [0x12, 0x01] ++ List.replicate 1534 0 := by
    show (fontData ++ memC1.drop 80).drop 512 = _
    rw [memC1_drop80, ← List.append_assoc]
    refine List.drop_left' ?_
    rw [List.length_append, h1, List.length_replicate]
  have hle : stC1.pc ≤ stC1.mem.length := by
    show (512 : Nat) ≤ (fontData ++ memC1.drop 80).length
    rw [List.length_append, List.length_drop, h1, h2]
    norm_num
  unfold fetch
  rw [if_pos hle, show stC1.pc = 512 from rfl, hdrop]
  decide

/-- C1 counterexample: from the freshly constructed machine over a
2048-byte image whose ROM is the jump `0x1201`, the first step succeeds
and leaves the program counter at the odd address 0x201. -/
theorem pc_alignment_counterexample :
    newCore memC1 (List.replicate 16 0) (List.replicate 16 0) = some stC1
    ∧ (tick stC1 inp0).2 = .ok ()
    ∧ (tick stC1 inp0).1.pc = 0x201
    ∧ (tick stC1 inp0).1.pc % 2 = 1 := by
  have hnew : newCore memC1 (List.replicate 16 0) (List.replicate 16 0)
      = some stC1 := by
    unfold newCore
    rw [if_pos]
    · rfl
    · refine ⟨?_, ?_, ?_⟩
      · unfold memC1
        rw [List.length_append, List.length_append, List.length_replicate,
          List.length_replicate]
        norm_num
      · rw [List.length_replicate]
      · rw [List.length_replicate]
  have htick : tick stC1 inp0 = ({ stC1 with pc := 0x201 }, .ok ()) := by
    rw [tick_fetch_ok fetch_stC1]
    show (applyPc stC1 (ModPc.jump 0x201), Except.ok ()) = _
    simp [applyPc]
  exact ⟨hnew, by rw [htick], by rw [htick], by rw [htick]; rfl⟩

/-- C1 amended: the program counter stays even-aligned after every
successful step whose jump-family target is even — hold, advance and
skip preserve parity, returns preserve the parity of the popped address,
and jumps land exactly on their (possibly odd) target, so evenness holds
exactly when every executed jump/call/jump-V0 target and popped return
address is even. -/
theorem pc_parity_preserved (s : St) (inp : Inputs)
    (hpc : s.pc % 2 = 0) (hj : jumpTargetsEven s = true)
    (hok : (tick s inp).2 = .ok ()) :
    (tick s inp).1.pc % 2 = 0 := by
  cases hf : fetch s with
  | error f => rw [tick_fetch_err hf] at hok; simp at hok
  | ok ins =>
    rw [tick_fetch_ok hf] at hok ⊢
    cases he : execInstr s inp ins with
    | error sf =>
      obtain ⟨s1, f⟩ := sf
      rw [he] at hok
      simp at hok
    | ok sd =>
      obtain ⟨s1, d⟩ := sd
      have hpc1 : s1.pc = s.pc := by
        have h := exec_pc s inp ins
        rw [he] at h
        simpa [exSt] using h
      have hd := exec_disp s inp ins s1 d he
      show (applyPc s1 d).pc % 2 = 0
      rcases hd with rfl | rfl | rfl | ⟨nnn, hins, rfl⟩ | ⟨nnn, hins, rfl⟩ |
        ⟨hins, rfl⟩
      · show s1.pc % 2 = 0
        rw [hpc1]; exact hpc
      · show (s1.pc + 2) % 65536 % 2 = 0
        rw [hpc1]; omega
      · show (s1.pc + 2 * (1 + 1)) % 65536 % 2 = 0
        rw [hpc1]; omega
      · show nnn % 65536 % 2 = 0
        unfold jumpTargetsEven at hj
        rw [hf] at hj
        rcases hins with rfl | rfl
        · simp at hj; omega
        · simp at hj; omega
      · subst hins
        show (nnn + s.reg.getD 0 0) % 65536 % 65536 % 2 = 0
        unfold jumpTargetsEven at hj
        rw [hf] at hj
        change ((nnn + s.reg.getD 0 0) % 2 == 0) = true at hj
        simp only [beq_iff_eq] at hj
        omega
      · subst hins
        show (s.stack.getD ((s.sp + 255) % 256) 0 + 2) % 65536 % 2 = 0
        unfold jumpTargetsEven at hj
        rw [hf] at hj
        change (s.stack.getD ((s.sp + 255) % 256) 0 % 2 == 0) = true at hj
        simp only [beq_iff_eq] at hj
        omega

/-- C1 witness: a jump to the even address 0x200 keeps the program
counter even-aligned. -/
theorem pc_parity_preserved_witness :
    stJ.pc % 2 = 0 ∧ jumpTargetsEven stJ = true ∧ (tick stJ inp0).2 = .ok ()
    ∧ (tick stJ inp0).1.pc % 2 = 0 :=
  ⟨by decide, by decide, by decide,
    pc_parity_preserved stJ inp0 (by decide) (by decide) (by decide)⟩

/-- C2 counterexample: `Core::new` does not zero the caller-supplied
register file — constructing over registers holding 1 leaves them
holding 1. -/
theorem new_registers_not_zeroed :
    (newCore (List.replicate 2048 0) (List.replicate 16 1)
        (List.replicate 16 0)).map (fun s => s.reg) = some (List.replicate 16 1)
    ∧ List.replicate 16 1 ≠ List.replicate 16 (0 : Nat) := by
  constructor
  · unfold newCore
    rw [if_pos]
    · rfl
    · refine ⟨?_, ?_, ?_⟩ <;> simp only [List.length_replicate] <;> norm_num
  · decide

/-- C2 amended: `Core::new` loads the font into bytes 0..79, sets
`pc = 0x200`, `sp = 0`, `i = 0`, and keeps the caller-supplied register
file and stack contents unchanged (they are zero only when the caller
supplies zeroed buffers, as the emulator does). -/
theorem newCore_spec (mem reg stack : List Nat)
    (hm : 2048 ≤ mem.length) (hr : 16 ≤ reg.length) (hs : 16 ≤ stack.length) :
    newCore mem reg stack =
      some { mem := fontData ++ mem.drop 80, reg := reg, stack := stack,
             i := 0, pc := 0x200, sp := 0 } := by
  unfold newCore
  rw [if_pos ⟨hm, hr, hs⟩]
  rfl

/-- C2 witness: construction over zeroed 2048/16/16-element buffers. -/
theorem newCore_spec_witness :
    2048 ≤ (List.replicate 2048 (0 : Nat)).length
    ∧ 16 ≤ (List.replicate 16 (0 : Nat)).length
    ∧ newCore (List.replicate 2048 0) (List.replicate 16 0)
          (List.replicate 16 0) =
        some { mem := fontData ++ (List.replicate 2048 (0 : Nat)).drop 80,
               reg := List.replicate 16 0, stack := List.replicate 16 0,
               i := 0, pc := 0x200, sp := 0 } :=
  ⟨by norm_num [List.length_replicate], by norm_num [List.length_replicate],
    newCore_spec _ _ _ (by norm_num [List.length_replicate])
      (by norm_num [List.length_replicate]) (by norm_num [List.length_replicate])⟩

/-- C3 counterexample: from a state with `sp = 0` (≤ 16), the return
instruction wraps the `u8` stack pointer to 255 while the call reports
`StackOverflow`, so the pointer exceeds the 16-entry capacity. -/
theorem sp_overflow_counterexample :
    stRet.sp ≤ 16
    ∧ (tick stRet inp0).2 = .error (.err .stackOverflow)
    ∧ (tick stRet inp0).1.sp = 255
    ∧ ¬ (tick stRet inp0).1.sp ≤ 16 := by
  decide

/-- C3 amended: with a 16-entry stack and `sp ≤ 16`, every call to
`Core::tick` — returning `Ok` or an error — leaves `sp ≤ 16`, except a
return executed on an empty stack (`sp = 0`), where the `u8` decrement
in `Core::pop` wraps the pointer to 255 before `StackOverflow` is
raised. -/
theorem sp_bounded_amended (s : St) (inp : Inputs)
    (hsp : s.sp ≤ 16) (hst : s.stack.length = 16)
    (hret : fetch s = .ok .I00EE → 1 ≤ s.sp) :
    (tick s inp).1.sp ≤ 16 := by
  cases hf : fetch s with
  | error f => rw [tick_fetch_err hf]; exact hsp
  | ok ins =>
    rw [tick_fetch_ok hf]
    have hsp2 := exec_sp s inp ins
    cases he : execInstr s inp ins with
    | ok sd =>
      obtain ⟨s1, d⟩ := sd
      rw [he] at hsp2
      simp only [exSt] at hsp2
      show (applyPc s1 d).sp ≤ 16
      rw [applyPc_sp]
      rcases hsp2 with h | ⟨hins, h⟩ | ⟨hlt, h⟩
      · rw [h]; exact hsp
      · rw [h]; have := hret (hins ▸ hf); omega
      · rw [h]; rw [hst] at hlt; omega
    | error sf =>
      obtain ⟨s1, f⟩ := sf
      rw [he] at hsp2
      simp only [exSt] at hsp2
      show s1.sp ≤ 16
      rcases hsp2 with h | ⟨hins, h⟩ | ⟨hlt, h⟩
      · rw [h]; exact hsp
      · rw [h]; have := hret (hins ▸ hf); omega
      · rw [h]; rw [hst] at hlt; omega

/-- C3 witness: a non-return step keeps the stack pointer bounded. -/
theorem sp_bounded_amended_witness :
    stJ.sp ≤ 16 ∧ stJ.stack.length = 16
    ∧ (fetch stJ = .ok .I00EE → 1 ≤ stJ.sp)
    ∧ (tick stJ inp0).1.sp ≤ 16 :=
  ⟨by decide, by decide, by decide,
    sp_bounded_amended stJ inp0 (by decide) (by decide) (by decide)⟩

/-- C8: the block-on-keypress instruction (FX0A) pops the lowest-index
bit of the falling-edge set into the destination register and advances
the program counter by 2; on an empty set the whole state (program
counter and register file included) is unchanged and the step returns
Ok. -/
theorem fx0a_key_wait (s : St) (inp : Inputs) (x : Nat)
    (hf : fetch s = .ok (.IFX0A x)) (hlen : 16 ≤ s.reg.length)
    (he : inp.edges < 65536) :
    (inp.edges ≠ 0 → ∃ idx, idx < 16 ∧ inp.edges.testBit idx = true
      ∧ (∀ j, j < idx → inp.edges.testBit j = false)
      ∧ tick s inp =
          ({ s with reg := s.reg.set x idx, pc := (s.pc + 2) % 65536 }, .ok ()))
    ∧ (inp.edges = 0 → tick s inp = (s, .ok ())) := by
  have hx : x < 16 := by
    obtain ⟨op, hop⟩ := fetch_ok_decode hf
    exact (decode_regs op _ hop x (by simp [instrRegs])).2
  constructor
  · intro hne
    obtain ⟨idx, hpop, hidx, hbit, hlow⟩ := popNextIdx_spec inp.edges hne he
    refine ⟨idx, hidx, hbit, hlow, ?_⟩
    rw [tick_fetch_ok hf]
    have hset : rSet s x idx = .ok { s with reg := s.reg.set x idx } :=
      rSet_ok_iff.mpr ⟨Nat.lt_of_lt_of_le hx hlen,
        by rw [Nat.mod_eq_of_lt (show idx < 256 by omega)]⟩
    simp only [execInstr, hpop, hset]
    simp [applyPc]
  · intro h0
    rw [tick_fetch_ok hf]
    simp [execInstr, h0, popNextIdx, applyPc]

/-- C8 witness: with falling edges `{4, 5}` the waiting machine pops key
4 into V5 and advances; with no edges the state is unchanged. -/
theorem fx0a_key_wait_witness :
    fetch stWait = .ok (.IFX0A 5) ∧ 16 ≤ stWait.reg.length
    ∧ inpE.edges < 65536
    ∧ ((inpE.edges ≠ 0 → ∃ idx, idx < 16 ∧ inpE.edges.testBit idx = true
        ∧ (∀ j, j < idx → inpE.edges.testBit j = false)
        ∧ tick stWait inpE =
            ({ stWait with reg := stWait.reg.set 5 idx,
                           pc := (stWait.pc + 2) % 65536 }, .ok ()))
      ∧ (inpE.edges = 0 → tick stWait inpE = (stWait, .ok ()))) :=
  ⟨by decide, by decide, by decide,
    fx0a_key_wait stWait inpE 5 (by decide) (by decide) (by decide)⟩

lemma bcd_lt (v : Nat) (hv : v < 256) :
    (bcd v).1 < 256 ∧ (bcd v).2.1 < 256 ∧ (bcd v).2.2 < 256 := by
  refine ⟨?_, ?_, ?_⟩
  · show v / 100 < 256
    omega
  · show (v - v / 100 * 100) / 10 < 256
    omega
  · show v - v / 100 * 100 - (v - v / 100 * 100) / 10 * 10 < 256
    omega

/-- C9: for every byte value the BCD decomposition reconstructs its
input (`hundreds*100 + tens*10 + ones = v`), and the FX33 instruction
stores hundreds, tens, ones at memory addresses I, I+1, I+2 and
advances. -/
theorem bcd_fx33 :
    (∀ v, v < 256 → (bcd v).1 * 100 + (bcd v).2.1 * 10 + (bcd v).2.2 = v)
    ∧ (∀ (s : St) (inp : Inputs) (x : Nat),
        fetch s = .ok (.IFX33 x) → 16 ≤ s.reg.length →
        s.reg.getD x 0 < 256 → s.i + 2 < s.mem.length →
        tick s inp =
          ({ s with
             mem := ((s.mem.set s.i (bcd (s.reg.getD x 0)).1).set (s.i + 1)
                 (bcd (s.reg.getD x 0)).2.1).set (s.i + 2)
                 (bcd (s.reg.getD x 0)).2.2,
             pc := (s.pc + 2) % 65536 }, .ok ())) := by
  refine ⟨bcd_reconstruct, ?_⟩
  intro s inp x hf hlen hv hmem
  have hx : x < 16 := by
    obtain ⟨op, hop⟩ := fetch_ok_decode hf
    exact (decode_regs op _ hop x (by simp [instrRegs])).2
  obtain ⟨hb1, hb2, hb3⟩ := bcd_lt (s.reg.getD x 0) hv
  rw [tick_fetch_ok hf]
  have hg : rGet s x = .ok (s.reg.getD x 0) :=
    rGet_ok_iff.mpr ⟨Nat.lt_of_lt_of_le hx hlen, rfl⟩
  have hw1 : memWrite s s.i (bcd (s.reg.getD x 0)).1 =
      .ok { s with mem := s.mem.set s.i (bcd (s.reg.getD x 0)).1 } :=
    memWrite_ok_iff.mpr ⟨by omega, by rw [Nat.mod_eq_of_lt hb1]⟩
  have hw2 : memWrite { s with mem := s.mem.set s.i (bcd (s.reg.getD x 0)).1 }
      (s.i + 1) (bcd (s.reg.getD x 0)).2.1 =
      .ok { s with
            mem := (s.mem.set s.i (bcd (s.reg.getD x 0)).1).set (s.i + 1)
                (bcd (s.reg.getD x 0)).2.1 } :=
    memWrite_ok_iff.mpr ⟨by simp only [List.length_set]; omega,
      by rw [Nat.mod_eq_of_lt hb2]⟩
  have hw3 : memWrite
      { s with
        mem := (s.mem.set s.i (bcd (s.reg.getD x 0)).1).set (s.i + 1)
            (bcd (s.reg.getD x 0)).2.1 }
      (s.i + 2) (bcd (s.reg.getD x 0)).2.2 =
      .ok { s with
            mem := ((s.mem.set s.i (bcd (s.reg.getD x 0)).1).set (s.i + 1)
                (bcd (s.reg.getD x 0)).2.1).set (s.i + 2)
                (bcd (s.reg.getD x 0)).2.2 } :=
    memWrite_ok_iff.mpr ⟨by simp only [List.length_set]; omega,
      by rw [Nat.mod_eq_of_lt hb3]⟩
  simp only [execInstr, hg, hw1, hw2, hw3]
  simp [applyPc]

/-- C9 witness: a machine with `V5 = 123` and `I = 20` executing FX33
writes 1, 2, 3 at addresses 20, 21, 22. -/
theorem bcd_fx33_witness :
    ((bcd 123).1 * 100 + (bcd 123).2.1 * 10 + (bcd 123).2.2 = 123)
    ∧ fetch stB = .ok (.IFX33 5) ∧ 16 ≤ stB.reg.length
    ∧ stB.reg.getD 5 0 < 256 ∧ stB.i + 2 < stB.mem.length
    ∧ tick stB inp0 =
        ({ stB with
           mem := ((stB.mem.set stB.i (bcd (stB.reg.getD 5 0)).1).set
               (stB.i + 1) (bcd (stB.reg.getD 5 0)).2.1).set (stB.i + 2)
               (bcd (stB.reg.getD 5 0)).2.2,
           pc := (stB.pc + 2) % 65536 }, .ok ()) :=
  ⟨bcd_fx33.1 123 (by decide), by decide, by decide, by decide, by decide,
    bcd_fx33.2 stB inp0 5 (by decide) (by decide) (by decide) (by decide)⟩

/-- C10: every register operand the decoder produces is the low nibble
of the relevant opcode byte (a value in 0..15), and with a register file
of length at least 16 no call to `Core::tick` ever raises a register
indexing panic. -/
theorem register_operands_bounded :
    (∀ (op : Nat) (ins : Instruction), decode op = .ok ins →
      ∀ r ∈ instrRegs ins,
        (r = (op >>> 8) &&& 0xF ∨ r = (op >>> 4) &&& 0xF) ∧ r < 16)
    ∧ (∀ (s : St) (inp : Inputs), 16 ≤ s.reg.length →
        (tick s inp).2 ≠ .error (.crash .regOob)) := by
  refine ⟨decode_regs, ?_⟩
  intro s inp hlen h
  cases hf : fetch s with
  | error f =>
    rw [tick_fetch_err hf] at h
    simp at h
    rcases fetch_err hf with h2 | ⟨op, h2⟩ <;> rw [h2] at h <;> simp at h
  | ok ins =>
    rw [tick_fetch_ok hf] at h
    cases he : execInstr s inp ins with
    | ok sd =>
      obtain ⟨s1, d⟩ := sd
      rw [he] at h
      simp at h
    | error sf =>
      obtain ⟨s1, f⟩ := sf
      rw [he] at h
      simp at h
      obtain ⟨op, hop⟩ := fetch_ok_decode hf
      have hb : ∀ r ∈ instrRegs ins, r < 16 :=
        fun r hr => (decode_regs op ins hop r hr).2
      exact exec_no_regOob s inp ins hlen hb s1 (h ▸ he)

/-- C10 witness: decoding `0x8124` yields register operands 1 and 2
(both low nibbles, below 16), and a step over a 16-register file never
raises a register indexing panic. -/
theorem register_operands_bounded_witness :
    decode 0x8124 = .ok (.I8XY4 1 2)
    ∧ (∀ r ∈ instrRegs (.I8XY4 1 2),
        (r = ((0x8124 : Nat) >>> 8) &&& 0xF
          ∨ r = ((0x8124 : Nat) >>> 4) &&& 0xF) ∧ r < 16)
    ∧ 16 ≤ stJ.reg.length
    ∧ (tick stJ inp0).2 ≠ .error (.crash .regOob) :=
  ⟨by decide, register_operands_bounded.1 0x8124 _ (by decide),
   by decide, register_operands_bounded.2 stJ inp0 (by decide)⟩

end Chip8
